import Mathlib

/-!
# VGM playback core of lovedos (`src/vgm.c`)

A shallow embedding of the VGM player: the file-scope statics of `vgm.c`
together with the three collaborators the code talks to (the timer hook, the
OPL2 ports and the storage provider) form one explicit state value, and each
C function becomes a function on that state.

Conventions
* `uint8_t` / `uint32_t` values are natural numbers reduced `% 256` / `% 2^32`
  wherever the C arithmetic can wrap; `int32_t vgm_wait` is an `Int`.
* A pointer is a block identifier plus a byte offset inside that block; `NULL`
  is `none`.
* The `while` loop of `vgm_int` is driven by a fuel counter that counts loop
  iterations (command dispatches); `none` means the fuel ran out.
* `TICKS_PER_SEC` is a constant of `lib/pctimer/gccint8.h`; every definition
  that uses `VGM_FACTOR` takes it as a parameter.
* `inp` only returns the chip's status byte; the two bytes the probe looks at
  are arguments of `vgm_opl_detect`, the settle loops leave the state alone.
-/

namespace Vgm

/-! ## Data model -/

/-- A pointer into a buffer handed out by the storage provider: the block it
points into and the byte offset from the start of that block. -/
structure Ptr where
  blk : Nat
  off : Nat
deriving DecidableEq, Repr

/-- What `filesystem_read` finds under a file name: the size it reports and the
memory contents seen from the start of the returned buffer.  Offsets at or
beyond `size` are whatever lies behind the allocation. -/
structure Buffer where
  size : Nat
  bytes : Nat → Nat

/-- A buffer whose contents are the given bytes (zero behind the end). -/
def Buffer.ofList (l : List Nat) : Buffer :=
  { size := l.length, bytes := fun i => l.getD i 0 }

/-- The statics of `vgm.c` plus the state of the collaborators. -/
structure VgmState where
  /-- The static `volatile uint8_t *vgm`. -/
  vgm : Option Ptr
  /-- The static `volatile vgm_t *vgm_header`. -/
  vgm_header : Option Ptr
  /-- The static `volatile uint8_t *vgm_data`. -/
  vgm_data : Option Ptr
  /-- The static `volatile uint32_t vgm_pos`. -/
  vgm_pos : Nat
  /-- The static `volatile uint32_t vgm_end`. -/
  vgm_end : Nat
  /-- The static `volatile int32_t vgm_wait`. -/
  vgm_wait : Int
  /-- Timer facility: `true` when `vgm_int` is the installed hook -/
  hook : Bool
  /-- Chip: register selected through the address port -/
  opl_addr : Nat
  /-- Chip: contents of the register file -/
  opl_regs : Nat → Nat
  /-- Chip: every (register, value) pair that reached the data port, oldest first -/
  opl_writes : List (Nat × Nat)
  /-- Storage provider: identifier of the next block it hands out -/
  heap_next : Nat
  /-- Storage provider: contents of each block -/
  heap_bytes : Nat → Nat → Nat
  /-- Storage provider: every block passed to `filesystem_free`, oldest first -/
  heap_freed : List Nat

/-- Program start: all statics hold their initialisers, nothing was read or
released, the chip registers hold whatever they hold (`regs`). -/
def VgmState.init (regs : Nat → Nat) : VgmState :=
  { vgm := none, vgm_header := none, vgm_data := none,
    vgm_pos := 0, vgm_end := 0, vgm_wait := 0,
    hook := false,
    opl_addr := 0, opl_regs := regs, opl_writes := [],
    heap_next := 0, heap_bytes := fun _ _ => 0, heap_freed := [] }

def VGM_RESOLUTION : Nat := 44100

/-- The macro `VGM_FACTOR`, that is `VGM_RESOLUTION / TICKS_PER_SEC`. -/
def VGM_FACTOR (TICKS_PER_SEC : Nat) : Nat := VGM_RESOLUTION / TICKS_PER_SEC

def VGM_OPL_ADDR : Nat := 0x388
def VGM_OPL_DATA : Nat := 0x389

def U32 : Nat := 2 ^ 32

/-! ## Chip register driver -/

/-- Port write `outp(port, val)` as the OPL2 sees it: the address port latches
the register number, the data port stores the byte in the latched register. -/
def outp (port val : Nat) (s : VgmState) : VgmState :=
  if port = VGM_OPL_ADDR then
    { s with opl_addr := val % 256 }
  else if port = VGM_OPL_DATA then
    { s with
      opl_regs := fun r => if r = s.opl_addr then val % 256 else s.opl_regs r,
      opl_writes := s.opl_writes ++ [(s.opl_addr, val % 256)] }
  else s

/-- The function `vgm_opl_write(reg, val)`.  The two settle loops only call `inp`, which
changes nothing in the state. -/
def vgm_opl_write (reg val : Nat) (s : VgmState) : VgmState :=
  let s := outp VGM_OPL_ADDR (reg % 256) s
  outp VGM_OPL_DATA (val % 256) s

/-- The function `vgm_opl_detect()`.  `A` and `B` are the two status bytes that `inp`
returns during the probe. -/
def vgm_opl_detect (A B : Nat) (s : VgmState) : Bool × VgmState :=
  let s := vgm_opl_write 1 0 s
  let s := vgm_opl_write 4 0x60 s
  let s := vgm_opl_write 4 0x80 s
  let s := vgm_opl_write 2 0xFF s
  let s := vgm_opl_write 4 0x21 s
  let s := vgm_opl_write 4 0x60 s
  let s := vgm_opl_write 4 0x80 s
  if (A % 256) &&& 0xE0 = 0 ∧ (B % 256) &&& 0xE0 = 0xC0 then (true, s) else (false, s)

/-- The function `vgm_opl_reset()`: `for (int i = 0; i < 256; i++) vgm_opl_write(i, 0x00);` -/
def vgm_opl_reset (s : VgmState) : VgmState :=
  (List.range 256).foldl (fun st i => vgm_opl_write i 0x00 st) s

/-! ## Stream decoder -/

/-- The byte `vgm_data[i]`. -/
def vgm_data_at (s : VgmState) (i : Nat) : Nat :=
  match s.vgm_data with
  | some p => s.heap_bytes p.blk (p.off + i) % 256
  | none => 0

/-- The read `*((uint16_t *)(&vgm_data[i]))` on the little-endian target -/
def vgm_data_u16 (s : VgmState) (i : Nat) : Nat :=
  vgm_data_at s i + 256 * vgm_data_at s (i + 1)

/-- The read `*((uint32_t *)(&vgm_data[i]))` on the little-endian target -/
def vgm_data_u32 (s : VgmState) (i : Nat) : Nat :=
  vgm_data_at s i + 256 * vgm_data_at s (i + 1)
    + 65536 * vgm_data_at s (i + 2) + 16777216 * vgm_data_at s (i + 3)

/-- The `if … else if …` chain of the loop body of `vgm_int`: the command at
`vgm_pos` is dispatched.  The flag is `true` when the branch executes `break`. -/
def vgm_dispatch (s : VgmState) : VgmState × Bool :=
  let cmd := vgm_data_at s s.vgm_pos
  if 0x70 ≤ cmd ∧ cmd < 0x80 then
    ({ s with vgm_wait := 1 + ((cmd &&& 0x0F : Nat) : Int),
              vgm_pos := (s.vgm_pos + 1) % U32 }, false)
  else if cmd = 0x5a then
    let aa := vgm_data_at s ((s.vgm_pos + 1) % U32)
    let dd := vgm_data_at s ((s.vgm_pos + 2) % U32)
    let s1 := vgm_opl_write aa dd s
    ({ s1 with vgm_pos := (s1.vgm_pos + 3) % U32 }, false)
  else if cmd = 0x61 then
    ({ s with vgm_wait := (vgm_data_u16 s ((s.vgm_pos + 1) % U32) : Nat),
              vgm_pos := (s.vgm_pos + 3) % U32 }, false)
  else if cmd = 0x62 then
    ({ s with vgm_wait := 735, vgm_pos := (s.vgm_pos + 1) % U32 }, false)
  else if cmd = 0x63 then
    ({ s with vgm_wait := 882, vgm_pos := (s.vgm_pos + 1) % U32 }, false)
  else if cmd = 0x66 then
    ({ s with vgm_pos := 0 }, true)
  else if cmd = 0x67 then
    let s1 := { s with vgm_pos := (s.vgm_pos + 3) % U32 }
    let s2 := { s1 with vgm_pos := (s1.vgm_pos + vgm_data_u32 s1 s1.vgm_pos) % U32 }
    ({ s2 with vgm_pos := (s2.vgm_pos + 4) % U32 }, false)
  else
    (s, false)

/-- One iteration of the `while` body of `vgm_int`: the dispatch followed by
the check of the waiting time against the IRQ interval. -/
def vgm_step (TICKS_PER_SEC : Nat) (s : VgmState) : VgmState × Bool :=
  match vgm_dispatch s with
  | (s1, true) => (s1, true)
  | (s1, false) =>
    if s1.vgm_wait > (VGM_FACTOR TICKS_PER_SEC : Nat) then (s1, true)
    else ({ s1 with vgm_wait := 0 }, false)

/-- The loop `while (vgm_pos < vgm_end)` with `fuel` loop iterations at its
disposal: `none` when the loop would need one more. -/
def vgm_loop (TICKS_PER_SEC : Nat) : Nat → VgmState → Option VgmState
  | 0, s => if s.vgm_pos < s.vgm_end then none else some s
  | fuel + 1, s =>
    if s.vgm_pos < s.vgm_end then
      match vgm_step TICKS_PER_SEC s with
      | (s1, true) => some s1
      | (s1, false) => vgm_loop TICKS_PER_SEC fuel s1
    else some s

/-- The per-tick callback `vgm_int()`. -/
def vgm_int (TICKS_PER_SEC : Nat) (fuel : Nat) (s : VgmState) : Option VgmState :=
  if s.vgm_wait > 0 then
    some { s with vgm_wait := s.vgm_wait - (VGM_FACTOR TICKS_PER_SEC : Nat) }
  else
    vgm_loop TICKS_PER_SEC fuel s

/-- Runs `vgm_int` the given number of times in a row, each time with the same fuel. -/
def vgm_ticks (TICKS_PER_SEC : Nat) (fuel : Nat) : Nat → VgmState → Option VgmState
  | 0, s => some s
  | n + 1, s =>
    match vgm_int TICKS_PER_SEC fuel s with
    | some s1 => vgm_ticks TICKS_PER_SEC fuel n s1
    | none => none

/-! ## Storage provider -/

/-- Modelled from the spec: `filesystem_read` of `filesystem.c` ("read whole
file, return buffer and size", `NotFound` otherwise).  A successful read hands
out a block that was never handed out before. -/
def filesystem_read (file : Option Buffer) (s : VgmState) : Option Ptr × Nat × VgmState :=
  match file with
  | none => (none, 0, s)
  | some b =>
    (some { blk := s.heap_next, off := 0 }, b.size,
     { s with heap_next := s.heap_next + 1,
              heap_bytes := fun k => if k = s.heap_next then b.bytes else s.heap_bytes k })

/-- Modelled from the spec: `filesystem_free` of `filesystem.c` ("release
buffer").  The release is recorded. -/
def filesystem_free (p : Ptr) (s : VgmState) : VgmState :=
  { s with heap_freed := s.heap_freed ++ [p.blk] }

/-- Number of times block `b` was passed to `filesystem_free`. -/
def releaseCount (s : VgmState) (b : Nat) : Nat := s.heap_freed.count b

/-! ## Playback controller -/

/-- The function `VgmPlay()`. -/
def VgmPlay (s : VgmState) : VgmState :=
  if s.vgm_data.isSome then
    { s with vgm_pos := 0, vgm_wait := 0, hook := true }
  else s

/-- The function `VgmStop()`. -/
def VgmStop (s : VgmState) : VgmState :=
  vgm_opl_reset { s with hook := false }

/-- The function `VgmDiscard()`. -/
def VgmDiscard (s : VgmState) : VgmState :=
  let s := VgmStop s
  let s := match s.vgm with
    | some p => filesystem_free p s
    | none => s
  { s with vgm := none, vgm_pos := 0, vgm_end := 0, vgm_wait := 0,
           vgm_header := none, vgm_data := none }

/-- The test `memcmp(vgm, "Vgm ", 4) == 0`. -/
def magicOk (s : VgmState) (p : Ptr) : Bool :=
  s.heap_bytes p.blk (p.off + 0) % 256 = 0x56 ∧ s.heap_bytes p.blk (p.off + 1) % 256 = 0x67 ∧
  s.heap_bytes p.blk (p.off + 2) % 256 = 0x6d ∧ s.heap_bytes p.blk (p.off + 3) % 256 = 0x20

/-- A `uint32_t` field of the header at byte offset `o` (little-endian). -/
def headerField (s : VgmState) (p : Ptr) (o : Nat) : Nat :=
  s.heap_bytes p.blk (p.off + o) % 256 + 256 * (s.heap_bytes p.blk (p.off + o + 1) % 256)
    + 65536 * (s.heap_bytes p.blk (p.off + o + 2) % 256)
    + 16777216 * (s.heap_bytes p.blk (p.off + o + 3) % 256)

/-- Byte offsets of the fields of `vgm_t` that the code reads. -/
def OFF_EoFoffset : Nat := 4
def OFF_Version : Nat := 8
def OFF_VGMdataoffset : Nat := 0x34

/-- The function `VgmLoad(fname)`.  `A`, `B` are the status bytes seen by the chip probe and
`file` is what the storage provider finds under `fname`.  The result is the
returned message (`none` for `NULL`) and the state left behind. -/
def VgmLoad (A B : Nat) (file : Option Buffer) (s : VgmState) : Option String × VgmState :=
  match vgm_opl_detect A B s with
  | (false, s) => (some "OPL2 not detected!", s)
  | (true, s) =>
    let s := VgmDiscard s
    match filesystem_read file s with
    | (none, _, s) => (some "could not read file", { s with vgm := none })
    | (some p, size, s) =>
      let s := { s with vgm := some p }
      if ¬ magicOk s p then
        (some "VGM header error.", filesystem_free p s)
      else
        let s := { s with vgm_header := some p }
        if (headerField s p OFF_EoFoffset : Int) ≠ ((size : Int) - 4) % (U32 : Int) then
          (some "VGM format error.", filesystem_free p s)
        else if headerField s p OFF_Version < 0x00000151 then
          (some "only VGM >= 1.51 is supported.", filesystem_free p s)
        else
          let d := headerField s p OFF_VGMdataoffset
          let data : Ptr := { blk := p.blk, off := (p.off + OFF_VGMdataoffset + d) % U32 }
          let s := { s with vgm_data := some data }
          (none, { s with vgm_end := (((size : Int) - ((data.off : Int) - (p.off : Int))) % (U32 : Int)).toNat })

/-- The function `shutdown_vgm()`. -/
def shutdown_vgm (s : VgmState) : VgmState := VgmDiscard s

/-- One call into the public interface of the module. -/
inductive Call where
  | load (A B : Nat) (file : Option Buffer)
  | play
  | stop
  | shutdown

/-- Effect of one call on the state (the message returned by a load is dropped). -/
def Call.exec (c : Call) (s : VgmState) : VgmState :=
  match c with
  | .load A B file => (VgmLoad A B file s).2
  | .play => VgmPlay s
  | .stop => VgmStop s
  | .shutdown => shutdown_vgm s

/-- A sequence of calls, executed left to right. -/
def runCalls (cs : List Call) (s : VgmState) : VgmState :=
  cs.foldl (fun st c => c.exec st) s

/-- A well-formed file around a command stream: the 228-byte header of `vgm_t`
with magic `"Vgm "`, `EoFoffset = size - 4`, the `Version` bytes `v0 v1 0 0`,
`VGMdataoffset = 176` (the stream starts right behind the header), then the
stream itself. -/
def vgmFile (v0 v1 : Nat) (stream : List Nat) : List Nat :=
  let n := 228 + stream.length - 4
  [0x56, 0x67, 0x6d, 0x20, n % 256, n / 256 % 256, n / 65536 % 256, n / 16777216 % 256,
    v0, v1, 0, 0] ++ List.replicate 40 0
    ++ [176, 0, 0, 0] ++ List.replicate 172 0 ++ stream

/-- The controller after program start, a successful load of version 1.51 of
the given stream (status bytes `0x00`, `0xC0`: chip present) and `VgmPlay`. -/
def playing (stream : List Nat) : VgmState :=
  VgmPlay (VgmLoad 0x00 0xC0 (some (Buffer.ofList (vgmFile 0x51 0x01 stream)))
    (VgmState.init (fun _ => 0))).2

/-! ## Views used in the statements -/

/-- Byte `i` of a file as the code reads it. -/
def Buffer.byte (b : Buffer) (i : Nat) : Nat := b.bytes i % 256

/-- Little-endian 32-bit header field of a file at byte offset `o`. -/
def Buffer.field (b : Buffer) (o : Nat) : Nat :=
  b.byte o + 256 * b.byte (o + 1) + 65536 * b.byte (o + 2) + 16777216 * b.byte (o + 3)

/-- The first four bytes of the file are the tag `"Vgm "`. -/
def Buffer.hasMagic (b : Buffer) : Prop :=
  b.byte 0 = 0x56 ∧ b.byte 1 = 0x67 ∧ b.byte 2 = 0x6d ∧ b.byte 3 = 0x20

instance (b : Buffer) : Decidable b.hasMagic := by
  unfold Buffer.hasMagic; infer_instance

/-- Blocks released by `VgmDiscard`: the one `vgm` points at, if any. -/
def discardFrees (s : VgmState) : List Nat :=
  match s.vgm with
  | some p => [p.blk]
  | none => []

/-- State of the chip after the probe sequence of `vgm_opl_detect`. -/
def probeState (s : VgmState) : VgmState :=
  vgm_opl_write 4 0x80 (vgm_opl_write 4 0x60 (vgm_opl_write 4 0x21 (vgm_opl_write 2 0xFF
    (vgm_opl_write 4 0x80 (vgm_opl_write 4 0x60 (vgm_opl_write 1 0 s))))))

/-- Outcome of the probe for the status bytes `A` and `B`. -/
def probeOk (A B : Nat) : Bool :=
  decide ((A % 256) &&& 0xE0 = 0 ∧ (B % 256) &&& 0xE0 = 0xC0)

/-- State right after a successful `filesystem_read` whose result was stored in `vgm`. -/
def readState (b : Buffer) (k : VgmState) : VgmState :=
  { k with vgm := some { blk := k.heap_next, off := 0 },
           heap_next := k.heap_next + 1,
           heap_bytes := fun j => if j = k.heap_next then b.bytes else k.heap_bytes j }

/-- The `EoFoffset` field passes the check against `size - 4`. -/
def Buffer.sizeOk (b : Buffer) : Prop :=
  (b.field 4 : Int) = ((b.size : Int) - 4) % (U32 : Int)

/-- State in which `VgmLoad` returns after rejecting the file it read into
`k`; `hdr` tells whether `vgm_header` had been set already. -/
def rejectState (hdr : Bool) (b : Buffer) (k : VgmState) : VgmState :=
  { readState b k with
    vgm_header := if hdr then some { blk := k.heap_next, off := 0 } else k.vgm_header,
    heap_freed := k.heap_freed ++ [k.heap_next] }

/-- State in which `VgmLoad` returns after accepting the file it read into `k`. -/
def loadedState (b : Buffer) (k : VgmState) : VgmState :=
  { readState b k with
    vgm_header := some { blk := k.heap_next, off := 0 },
    vgm_data := some { blk := k.heap_next, off := (0x34 + b.field 0x34) % U32 },
    vgm_end := (((b.size : Int) - (((0x34 + b.field 0x34) % U32 : Nat) : Int))
                  % (U32 : Int)).toNat }

/-- Every released block and the block `vgm` points at were handed out before. -/
def HeapOk (s : VgmState) : Prop :=
  (∀ b ∈ s.heap_freed, b < s.heap_next) ∧ (∀ p, s.vgm = some p → p.blk < s.heap_next)

/-- The two states read the same command stream. -/
def SameStream (s t : VgmState) : Prop :=
  t.vgm_data = s.vgm_data ∧ t.heap_bytes = s.heap_bytes ∧ t.vgm_end = s.vgm_end

/-- Length in bytes of the command at offset `p`, when its opcode is one that
`vgm_int` recognises. -/
def cmdLength (s : VgmState) (p : Nat) : Option Nat :=
  let cmd := vgm_data_at s p
  if 0x70 ≤ cmd ∧ cmd < 0x80 then some 1
  else if cmd = 0x5a then some 3
  else if cmd = 0x61 then some 3
  else if cmd = 0x62 then some 1
  else if cmd = 0x63 then some 1
  else if cmd = 0x66 then some 1
  else if cmd = 0x67 then some (3 + 4 + vgm_data_u32 s (p + 3))
  else none

/-- The stream parses from offset `p` as complete recognised commands: each
command lies inside the stream, and the sequence runs up to the end of the
stream or up to an end-of-stream command `0x66`.  `fuel` bounds the number of
commands looked at. -/
def parsesFrom (s : VgmState) : Nat → Nat → Bool
  | 0, p => decide (p = s.vgm_end)
  | fuel + 1, p =>
    if p = s.vgm_end then true
    else if p < s.vgm_end then
      if vgm_data_at s p = 0x66 then true
      else
        match cmdLength s p with
        | some len => decide (p + len ≤ s.vgm_end) && parsesFrom s fuel (p + len)
        | none => false
    else false

/-- The opcode is none of those `vgm_int` handles. -/
def unrecognised (cmd : Nat) : Prop :=
  ¬ (0x70 ≤ cmd ∧ cmd < 0x80) ∧ cmd ≠ 0x5a ∧ cmd ≠ 0x61 ∧ cmd ≠ 0x62 ∧ cmd ≠ 0x63 ∧
    cmd ≠ 0x66 ∧ cmd ≠ 0x67

instance (cmd : Nat) : Decidable (unrecognised cmd) := by
  unfold unrecognised; infer_instance

/-- The state `s` with the cursor at `p` and the wait counter at `w`. -/
def atCursor (s : VgmState) (p : Nat) (w : Int) : VgmState :=
  { s with vgm_pos := p, vgm_wait := w }

/-- Number of samples `W` that the wait-producing command at offset `p` asks
for: `1 + (opcode & 0x0F)` for `0x70..0x7F`, the little-endian 16-bit operand
for `0x61`, 735 for `0x62`, 882 for `0x63`; `none` for every other opcode. -/
def waitOf (s : VgmState) (p : Nat) : Option Nat :=
  let cmd := vgm_data_at s p
  if 0x70 ≤ cmd ∧ cmd < 0x80 then some (1 + (cmd &&& 0x0F))
  else if cmd = 0x61 then some (vgm_data_at s (p + 1) + 256 * vgm_data_at s (p + 2))
  else if cmd = 0x62 then some 735
  else if cmd = 0x63 then some 882
  else none

/-- Length in bytes of a wait-producing command: 3 for `0x61`, 1 otherwise. -/
def waitLength (s : VgmState) (p : Nat) : Nat :=
  if vgm_data_at s p = 0x61 then 3 else 1

/-- Offsets into `vgm_data` that one iteration of the loop body reads when it
starts in state `s`: the opcode at the cursor, the two operands of `0x5a` and
`0x61`, the four bytes of the size field of `0x67`. -/
def vgm_dispatch_reads (s : VgmState) : List Nat :=
  let cmd := vgm_data_at s s.vgm_pos
  s.vgm_pos ::
    (if cmd = 0x5a then [(s.vgm_pos + 1) % U32, (s.vgm_pos + 2) % U32]
     else if cmd = 0x61 then [(s.vgm_pos + 1) % U32, (s.vgm_pos + 1) % U32 + 1]
     else if cmd = 0x67 then
       [(s.vgm_pos + 3) % U32, (s.vgm_pos + 3) % U32 + 1, (s.vgm_pos + 3) % U32 + 2,
        (s.vgm_pos + 3) % U32 + 3]
     else [])

/-- States in which the loop of `vgm_int` dispatches a command, in order, when
the loop starts in `s` with the given fuel. -/
def vgm_loop_trace (TICKS_PER_SEC : Nat) : Nat → VgmState → List VgmState
  | 0, _ => []
  | fuel + 1, s =>
    if s.vgm_pos < s.vgm_end then
      s :: (match vgm_step TICKS_PER_SEC s with
            | (_, true) => []
            | (s1, false) => vgm_loop_trace TICKS_PER_SEC fuel s1)
    else []

/-- States in which one invocation of `vgm_int` dispatches a command. -/
def vgm_int_trace (TICKS_PER_SEC : Nat) (fuel : Nat) (s : VgmState) : List VgmState :=
  if s.vgm_wait > 0 then [] else vgm_loop_trace TICKS_PER_SEC fuel s

/-- Offsets into `vgm_data` read by one invocation of `vgm_int`. -/
def vgm_int_reads (TICKS_PER_SEC : Nat) (fuel : Nat) (s : VgmState) : List Nat :=
  ((vgm_int_trace TICKS_PER_SEC fuel s).map vgm_dispatch_reads).flatten

/-- The file of `vgmFile` for version 1.51, but with the bytes `d0 d1 0 0` in
the `VGMdataoffset` field. -/
def vgmFileOffset (d0 d1 : Nat) (stream : List Nat) : List Nat :=
  let n := 228 + stream.length - 4
  [0x56, 0x67, 0x6d, 0x20, n % 256, n / 256 % 256, n / 65536 % 256, n / 16777216 % 256,
    0x51, 0x01, 0, 0] ++ List.replicate 40 0
    ++ [d0, d1, 0, 0] ++ List.replicate 172 0 ++ stream

/-- State `r` reads the stream of `s0` and its cursor is on a command boundary
of that stream (or at its end). -/
def AtBoundary (s0 r : VgmState) : Prop :=
  SameStream s0 r ∧ parsesFrom s0 s0.vgm_end r.vgm_pos = true

/-- The chip write that the command at offset `p` asks for: the operand pair
`(register, value)` of a register-write command `0x5a`, nothing for any other
command. -/
def cmdWrites (s : VgmState) (p : Nat) : List (Nat × Nat) :=
  if vgm_data_at s p = 0x5a then [(vgm_data_at s (p + 1), vgm_data_at s (p + 2))] else []

/-- The operand pairs of the `0x5a` commands of the stream, in stream order,
from offset `p` up to the first end-of-stream command `0x66`; `none` when the
stream does not parse from `p` as complete recognised commands ending in
`0x66`.  `fuel` bounds the number of commands looked at. -/
def streamWrites (s : VgmState) : Nat → Nat → Option (List (Nat × Nat))
  | 0, _ => none
  | fuel + 1, p =>
    if p < s.vgm_end then
      if vgm_data_at s p = 0x66 then some []
      else
        match cmdLength s p with
        | some len =>
          if p + len ≤ s.vgm_end then
            (streamWrites s fuel (p + len)).map (fun ws => cmdWrites s p ++ ws)
          else none
        | none => none
    else none

/-- Starting from the state `first` (if a tick returned it), `k` further ticks
reach `r` with the cursor back at 0 and the chip-write record `w0 ++ ws`, and
in no state before `r` is the cursor 0. -/
def ResetsAfter (T F : Nat) (first : Option VgmState) (w0 ws : List (Nat × Nat)) : Prop :=
  ∃ k r s1, first = some s1 ∧ vgm_ticks T F k s1 = some r ∧ r.vgm_pos = 0 ∧
    r.opl_writes = w0 ++ ws ∧
    ∀ j, j < k → ∀ rj, vgm_ticks T F j s1 = some rj → rj.vgm_pos ≠ 0

/-! ## Equations for the chip driver and the controller -/

set_option maxRecDepth 100000

theorem vgm_opl_write_eq (reg val : Nat) (s : VgmState) :
    vgm_opl_write reg val s =
      { s with opl_addr := reg % 256,
               opl_regs := fun r => if r = reg % 256 then val % 256 else s.opl_regs r,
               opl_writes := s.opl_writes ++ [(reg % 256, val % 256)] } := by
  simp [vgm_opl_write, outp, VGM_OPL_ADDR, VGM_OPL_DATA]

theorem reset_rounds (n : Nat) (hn : n < 256) (s : VgmState) :
    (List.range (n + 1)).foldl (fun st i => vgm_opl_write i 0x00 st) s =
      { s with opl_addr := n,
               opl_regs := fun r => if r ≤ n then 0 else s.opl_regs r,
               opl_writes := s.opl_writes ++ (List.range (n + 1)).map (fun i => (i, 0)) } := by
  induction n with
  | zero =>
    simp [List.range_succ, vgm_opl_write_eq]
  | succ k ih =>
    rw [List.range_succ, List.foldl_append, ih (by omega)]
    simp only [List.foldl_cons, List.foldl_nil, vgm_opl_write_eq]
    have hk : (k + 1) % 256 = k + 1 := Nat.mod_eq_of_lt hn
    rw [hk]
    congr 1
    · funext r
      by_cases h1 : r = k + 1
      · simp [h1]
      · by_cases h2 : r ≤ k
        · have : r ≤ k + 1 := by omega
          simp [h1, h2, this]
        · have : ¬ r ≤ k + 1 := by omega
          simp [h1, h2, this]
    · simp [List.range_succ]

theorem vgm_opl_reset_eq (s : VgmState) :
    vgm_opl_reset s =
      { s with opl_addr := 255,
               opl_regs := fun r => if r ≤ 255 then 0 else s.opl_regs r,
               opl_writes := s.opl_writes ++ (List.range 256).map (fun i => (i, 0)) } := by
  unfold vgm_opl_reset
  exact reset_rounds 255 (by decide) s

theorem VgmStop_eq (s : VgmState) :
    VgmStop s =
      { s with hook := false, opl_addr := 255,
               opl_regs := fun r => if r ≤ 255 then 0 else s.opl_regs r,
               opl_writes := s.opl_writes ++ (List.range 256).map (fun i => (i, 0)) } := by
  simp [VgmStop, vgm_opl_reset_eq]

theorem VgmDiscard_eq (s : VgmState) :
    VgmDiscard s =
      { s with vgm := none, vgm_header := none, vgm_data := none,
               vgm_pos := 0, vgm_end := 0, vgm_wait := 0, hook := false,
               opl_addr := 255,
               opl_regs := fun r => if r ≤ 255 then 0 else s.opl_regs r,
               opl_writes := s.opl_writes ++ (List.range 256).map (fun i => (i, 0)),
               heap_freed := s.heap_freed ++ discardFrees s } := by
  unfold VgmDiscard discardFrees
  rw [VgmStop_eq]
  cases h : s.vgm <;> simp [h, filesystem_free]

theorem vgm_opl_detect_eq (A B : Nat) (s : VgmState) :
    vgm_opl_detect A B s = (probeOk A B, probeState s) := by
  unfold vgm_opl_detect probeOk probeState
  by_cases h : (A % 256) &&& 0xE0 = 0 ∧ (B % 256) &&& 0xE0 = 0xC0
  · simp [h]
  · simp [h]

theorem probeState_eq (s : VgmState) :
    probeState s =
      { s with opl_addr := 4, opl_regs := (probeState s).opl_regs,
               opl_writes := s.opl_writes ++
                 [(1, 0), (4, 0x60), (4, 0x80), (2, 0xFF), (4, 0x21), (4, 0x60), (4, 0x80)] } := by
  simp [probeState, vgm_opl_write_eq]

theorem VgmLoad_eq (A B : Nat) (file : Option Buffer) (s : VgmState) :
    VgmLoad A B file s =
      if probeOk A B = false then (some "OPL2 not detected!", probeState s)
      else match file with
        | none => (some "could not read file", VgmDiscard (probeState s))
        | some b =>
          let k := readState b (VgmDiscard (probeState s))
          let blk := (VgmDiscard (probeState s)).heap_next
          if ¬ b.hasMagic then
            (some "VGM header error.", { k with heap_freed := k.heap_freed ++ [blk] })
          else if (b.field 4 : Int) ≠ ((b.size : Int) - 4) % (U32 : Int) then
            (some "VGM format error.",
              { k with vgm_header := some { blk := blk, off := 0 },
                       heap_freed := k.heap_freed ++ [blk] })
          else if b.field 8 < 0x151 then
            (some "only VGM >= 1.51 is supported.",
              { k with vgm_header := some { blk := blk, off := 0 },
                       heap_freed := k.heap_freed ++ [blk] })
          else
            (none,
              { k with vgm_header := some { blk := blk, off := 0 },
                       vgm_data := some { blk := blk, off := (0x34 + b.field 0x34) % U32 },
                       vgm_end := (((b.size : Int) - (((0x34 + b.field 0x34) % U32 : Nat) : Int))
                                    % (U32 : Int)).toNat }) := by
  unfold VgmLoad
  rw [vgm_opl_detect_eq]
  cases hp : probeOk A B
  · simp
  · cases file with
    | none =>
      simp only [filesystem_read]
      simp [VgmDiscard_eq]
    | some b =>
      dsimp only
      generalize VgmDiscard (probeState s) = k
      obtain ⟨k1, k2, k3, k4, k5, k6, k7, k8, k9, k10, k11, k12, k13⟩ := k
      simp only [filesystem_read, magicOk, headerField, filesystem_free, readState,
        Buffer.hasMagic, Buffer.field, Buffer.byte, OFF_EoFoffset, OFF_Version,
        OFF_VGMdataoffset, if_true, Nat.zero_add, Nat.add_zero]
      simp

theorem VgmPlay_of_no_data (s : VgmState) (h : s.vgm_data = none) : VgmPlay s = s := by
  simp [VgmPlay, h]

/-- For a file that holds the header, the unsigned comparison of `EoFoffset`
with `size - 4` is the comparison of the two numbers. -/
theorem eof_cmp (b : Buffer) (h1 : 228 ≤ b.size) (h2 : b.size < 2 ^ 31) :
    ((b.field 4 : Int) ≠ ((b.size : Int) - 4) % (U32 : Int)) ↔ b.field 4 ≠ b.size - 4 := by
  have hsz : ((b.size : Int) - 4) % (U32 : Int) = ((b.size - 4 : Nat) : Int) := by
    have : ((b.size : Int) - 4) = ((b.size - 4 : Nat) : Int) := by omega
    rw [this]
    apply Int.emod_eq_of_lt
    · omega
    · simp only [U32]; norm_num; omega
  rw [hsz]
  simp

theorem sample_size : (Buffer.ofList (vgmFile 0x51 0x01 [0x66])).size = 229 := by
  decide

theorem VgmLoad_cases (A B : Nat) (file : Option Buffer) (s : VgmState) :
    (probeOk A B = false ∧
      VgmLoad A B file s = (some "OPL2 not detected!", probeState s)) ∨
    (probeOk A B = true ∧ file = none ∧
      VgmLoad A B file s = (some "could not read file", VgmDiscard (probeState s))) ∨
    (∃ b, probeOk A B = true ∧ file = some b ∧ ¬ b.hasMagic ∧
      VgmLoad A B file s =
        (some "VGM header error.", rejectState false b (VgmDiscard (probeState s)))) ∨
    (∃ b, probeOk A B = true ∧ file = some b ∧ b.hasMagic ∧ ¬ b.sizeOk ∧
      VgmLoad A B file s =
        (some "VGM format error.", rejectState true b (VgmDiscard (probeState s)))) ∨
    (∃ b, probeOk A B = true ∧ file = some b ∧ b.hasMagic ∧ b.sizeOk ∧ b.field 8 < 0x151 ∧
      VgmLoad A B file s =
        (some "only VGM >= 1.51 is supported.",
          rejectState true b (VgmDiscard (probeState s)))) ∨
    (∃ b, probeOk A B = true ∧ file = some b ∧ b.hasMagic ∧ b.sizeOk ∧ 0x151 ≤ b.field 8 ∧
      VgmLoad A B file s = (none, loadedState b (VgmDiscard (probeState s)))) := by
  rw [VgmLoad_eq]
  cases hp : probeOk A B
  · left; simp
  · right
    rw [if_neg (by simp)]
    cases file with
    | none => left; simp
    | some b =>
      right
      simp only
      by_cases c1 : b.hasMagic
      · right
        rw [if_neg (not_not.mpr c1)]
        by_cases c2 : b.sizeOk
        · right
          have c2' : ¬ ((b.field 4 : Int) ≠ ((b.size : Int) - 4) % (U32 : Int)) := by
            intro h; exact h c2
          rw [if_neg c2']
          by_cases c3 : b.field 8 < 0x151
          · left
            rw [if_pos c3]
            exact ⟨b, trivial, rfl, c1, c2, c3, rfl⟩
          · right
            rw [if_neg c3]
            exact ⟨b, trivial, rfl, c1, c2, by omega, rfl⟩
        · left
          have c2' : ((b.field 4 : Int) ≠ ((b.size : Int) - 4) % (U32 : Int)) := c2
          rw [if_pos c2']
          exact ⟨b, trivial, rfl, c1, c2, rfl⟩
      · left
        rw [if_pos c1]
        exact ⟨b, trivial, rfl, c1, rfl⟩

theorem HeapOk_init (regs : Nat → Nat) : HeapOk (VgmState.init regs) := by
  simp [HeapOk, VgmState.init]

theorem HeapOk_of_eq (s t : VgmState) (h1 : t.heap_freed = s.heap_freed)
    (h2 : t.heap_next = s.heap_next) (h3 : t.vgm = s.vgm) (h : HeapOk s) : HeapOk t := by
  unfold HeapOk at *
  rw [h1, h2, h3]
  exact h

theorem HeapOk_probeState (s : VgmState) (h : HeapOk s) : HeapOk (probeState s) := by
  apply HeapOk_of_eq s _ _ _ _ h <;> rw [probeState_eq]

theorem HeapOk_VgmPlay (s : VgmState) (h : HeapOk s) : HeapOk (VgmPlay s) := by
  apply HeapOk_of_eq s _ _ _ _ h <;> (unfold VgmPlay; split <;> rfl)

theorem HeapOk_VgmStop (s : VgmState) (h : HeapOk s) : HeapOk (VgmStop s) := by
  apply HeapOk_of_eq s _ _ _ _ h <;> rw [VgmStop_eq]

theorem discardFrees_lt (s : VgmState) (h : HeapOk s) : ∀ b ∈ discardFrees s, b < s.heap_next := by
  intro b hb
  unfold discardFrees at hb
  cases hv : s.vgm with
  | none => simp [hv] at hb
  | some p =>
    simp [hv] at hb
    rw [hb]
    exact h.2 p hv

theorem HeapOk_VgmDiscard (s : VgmState) (h : HeapOk s) : HeapOk (VgmDiscard s) := by
  rw [VgmDiscard_eq]
  refine ⟨?_, ?_⟩
  · intro b hb
    simp only [List.mem_append] at hb
    rcases hb with hb | hb
    · exact h.1 b hb
    · exact discardFrees_lt s h b hb
  · intro p hp
    simp at hp

theorem HeapOk_rejectState (hdr : Bool) (b : Buffer) (k : VgmState) (h : HeapOk k) :
    HeapOk (rejectState hdr b k) := by
  refine ⟨?_, ?_⟩
  · intro x hx
    simp only [rejectState, readState, List.mem_append, List.mem_singleton] at hx ⊢
    rcases hx with hx | hx
    · exact Nat.lt_succ_of_lt (h.1 x hx)
    · omega
  · intro p hp
    simp only [rejectState, readState] at hp ⊢
    cases hp
    exact Nat.lt_succ_self _

theorem HeapOk_loadedState (b : Buffer) (k : VgmState) (h : HeapOk k) :
    HeapOk (loadedState b k) := by
  refine ⟨?_, ?_⟩
  · intro x hx
    simp only [loadedState, readState] at hx ⊢
    exact Nat.lt_succ_of_lt (h.1 x hx)
  · intro p hp
    simp only [loadedState, readState] at hp ⊢
    cases hp
    exact Nat.lt_succ_self _

theorem HeapOk_VgmLoad (A B : Nat) (file : Option Buffer) (s : VgmState) (h : HeapOk s) :
    HeapOk (VgmLoad A B file s).2 := by
  have hk := HeapOk_VgmDiscard _ (HeapOk_probeState s h)
  rcases VgmLoad_cases A B file s with ⟨_, e⟩ | ⟨_, _, e⟩ | ⟨b, _, _, _, e⟩ | ⟨b, _, _, _, _, e⟩ |
    ⟨b, _, _, _, _, _, e⟩ | ⟨b, _, _, _, _, _, e⟩ <;> rw [e]
  · exact HeapOk_probeState s h
  · exact hk
  · exact HeapOk_rejectState _ b _ hk
  · exact HeapOk_rejectState _ b _ hk
  · exact HeapOk_rejectState _ b _ hk
  · exact HeapOk_loadedState b _ hk

theorem HeapOk_exec (c : Call) (s : VgmState) (h : HeapOk s) : HeapOk (c.exec s) := by
  cases c with
  | load A B file => exact HeapOk_VgmLoad A B file s h
  | play => exact HeapOk_VgmPlay s h
  | stop => exact HeapOk_VgmStop s h
  | shutdown => exact HeapOk_VgmDiscard s h

theorem HeapOk_runCalls (cs : List Call) (s : VgmState) (h : HeapOk s) :
    HeapOk (runCalls cs s) := by
  induction cs generalizing s with
  | nil => exact h
  | cons c cs ih => exact ih _ (HeapOk_exec c s h)

/-- Blocks are handed out in order: a rejected file was read into block `k.heap_next`. -/
theorem releaseCount_rejectState (hdr : Bool) (b : Buffer) (k : VgmState) (h : HeapOk k) :
    releaseCount (rejectState hdr b k) k.heap_next = 1 := by
  have h0 : List.count k.heap_next k.heap_freed = 0 := by
    apply List.count_eq_zero_of_not_mem
    intro hm
    exact Nat.lt_irrefl _ (h.1 _ hm)
  simp [releaseCount, rejectState, readState, List.count_append, h0]

/-- The message returned by `VgmLoad` is that of the first failing check. -/
theorem VgmLoad_message (A B : Nat) (file : Option Buffer) (s : VgmState)
    (hsize : ∀ b ∈ file, 228 ≤ b.size ∧ b.size < 2 ^ 31) :
    (VgmLoad A B file s).1 =
      (if (vgm_opl_detect A B s).1 = false then some "OPL2 not detected!"
       else match file with
        | none => some "could not read file"
        | some b =>
          if ¬ b.hasMagic then some "VGM header error."
          else if b.field 4 ≠ b.size - 4 then some "VGM format error."
          else if b.field 8 < 0x151 then some "only VGM >= 1.51 is supported."
          else none) := by
  rw [VgmLoad_eq, vgm_opl_detect_eq]
  cases hp : probeOk A B
  · simp
  · cases file with
    | none => simp
    | some b =>
      obtain ⟨h1, h2⟩ := hsize b rfl
      have he := eof_cmp b h1 h2
      simp only [he]
      by_cases hm : b.hasMagic
      · by_cases hf : b.field 4 = b.size - 4
        · by_cases hv : b.field 8 < 0x151
          · simp [hm, hf, hv]
          · simp [hm, hf, hv]
        · simp [hm, hf]
      · simp [hm]

/-! ## The stream decoder -/

theorem SameStream.refl (s : VgmState) : SameStream s s := ⟨rfl, rfl, rfl⟩

theorem SameStream.trans {s t u : VgmState} (h1 : SameStream s t) (h2 : SameStream t u) :
    SameStream s u :=
  ⟨h2.1.trans h1.1, h2.2.1.trans h1.2.1, h2.2.2.trans h1.2.2⟩

theorem vgm_data_at_congr {s t : VgmState} (h : SameStream s t) (i : Nat) :
    vgm_data_at t i = vgm_data_at s i := by
  unfold vgm_data_at
  rw [h.1, h.2.1]

theorem vgm_data_u16_congr {s t : VgmState} (h : SameStream s t) (i : Nat) :
    vgm_data_u16 t i = vgm_data_u16 s i := by
  simp only [vgm_data_u16, vgm_data_at_congr h]

theorem vgm_data_u32_congr {s t : VgmState} (h : SameStream s t) (i : Nat) :
    vgm_data_u32 t i = vgm_data_u32 s i := by
  simp only [vgm_data_u32, vgm_data_at_congr h]

theorem cmdLength_congr {s t : VgmState} (h : SameStream s t) (p : Nat) :
    cmdLength t p = cmdLength s p := by
  simp only [cmdLength, vgm_data_at_congr h, vgm_data_u32_congr h]

theorem parsesFrom_congr {s t : VgmState} (h : SameStream s t) (n p : Nat) :
    parsesFrom t n p = parsesFrom s n p := by
  induction n generalizing p with
  | zero => simp only [parsesFrom, h.2.2]
  | succ k ih => simp only [parsesFrom, h.2.2, vgm_data_at_congr h, cmdLength_congr h, ih]

theorem vgm_opl_write_sameStream (reg val : Nat) (s : VgmState) :
    SameStream s (vgm_opl_write reg val s) := by
  rw [vgm_opl_write_eq]; exact ⟨rfl, rfl, rfl⟩

/-- The dispatch never touches the stream, its length or the storage. -/
theorem vgm_dispatch_sameStream (s : VgmState) : SameStream s (vgm_dispatch s).1 := by
  unfold vgm_dispatch
  simp only [vgm_opl_write_eq]
  split_ifs <;> exact ⟨rfl, rfl, rfl⟩

theorem vgm_step_sameStream (T : Nat) (s : VgmState) : SameStream s (vgm_step T s).1 := by
  have h := vgm_dispatch_sameStream s
  unfold vgm_step
  rcases hd : vgm_dispatch s with ⟨s1, b⟩
  rw [hd] at h
  cases b
  · simp only
    split_ifs
    · exact h
    · exact h
  · exact h

theorem vgm_step_pos (T : Nat) (s : VgmState) :
    (vgm_step T s).1.vgm_pos = (vgm_dispatch s).1.vgm_pos := by
  unfold vgm_step
  rcases hd : vgm_dispatch s with ⟨s1, b⟩
  cases b
  · simp only
    split_ifs <;> rfl
  · rfl

theorem vgm_dispatch_eos (s : VgmState) (h : vgm_data_at s s.vgm_pos = 0x66) :
    vgm_dispatch s = ({ s with vgm_pos := 0 }, true) := by
  unfold vgm_dispatch
  simp [h]

theorem vgm_dispatch_wait62 (s : VgmState) (h : vgm_data_at s s.vgm_pos = 0x62) :
    vgm_dispatch s = ({ s with vgm_wait := 735, vgm_pos := (s.vgm_pos + 1) % U32 }, false) := by
  unfold vgm_dispatch
  simp [h]

theorem vgm_dispatch_block (s : VgmState) (h : vgm_data_at s s.vgm_pos = 0x67) :
    vgm_dispatch s =
      ({ s with vgm_pos :=
          (((s.vgm_pos + 3) % U32 + vgm_data_u32 s ((s.vgm_pos + 3) % U32)) % U32 + 4) % U32 },
        false) := by
  have hs : ∀ q, SameStream s { s with vgm_pos := q } := fun q => ⟨rfl, rfl, rfl⟩
  unfold vgm_dispatch
  simp only [h, vgm_data_u32_congr (hs _)]
  simp

theorem vgm_dispatch_unrecognised (s : VgmState) (h : unrecognised (vgm_data_at s s.vgm_pos)) :
    vgm_dispatch s = (s, false) := by
  obtain ⟨h1, h2, h3, h4, h5, h6, h7⟩ := h
  unfold vgm_dispatch
  simp only [h1, h2, h3, h4, h5, h6, h7, if_false]

/-- A recognised command other than `0x66` that does not wrap the 32-bit cursor
moves the cursor forward by its length and does not leave the loop by itself. -/
theorem vgm_dispatch_advance (s : VgmState) (len : Nat)
    (hlen : cmdLength s s.vgm_pos = some len) (hne : vgm_data_at s s.vgm_pos ≠ 0x66)
    (hw : s.vgm_pos + len < U32) :
    (vgm_dispatch s).1.vgm_pos = s.vgm_pos + len ∧ (vgm_dispatch s).2 = false := by
  have hs : ∀ q, SameStream s { s with vgm_pos := q } := fun q => ⟨rfl, rfl, rfl⟩
  simp only [cmdLength] at hlen
  unfold vgm_dispatch
  simp only [vgm_opl_write_eq, vgm_data_u32_congr (hs _)]
  split_ifs at hlen ⊢ with c1 c2 c3 c4 c5 c6
  · injection hlen with hlen; subst hlen; exact ⟨Nat.mod_eq_of_lt hw, rfl⟩
  · injection hlen with hlen; subst hlen; exact ⟨Nat.mod_eq_of_lt hw, rfl⟩
  · injection hlen with hlen; subst hlen; exact ⟨Nat.mod_eq_of_lt hw, rfl⟩
  · injection hlen with hlen; subst hlen; exact ⟨Nat.mod_eq_of_lt hw, rfl⟩
  · injection hlen with hlen; subst hlen; exact ⟨Nat.mod_eq_of_lt hw, rfl⟩
  · injection hlen with hlen
    subst hlen
    have h3 : (s.vgm_pos + 3) % U32 = s.vgm_pos + 3 := Nat.mod_eq_of_lt (by omega)
    refine ⟨?_, rfl⟩
    simp only [h3]
    have h4 : (s.vgm_pos + 3 + vgm_data_u32 s (s.vgm_pos + 3)) % U32
        = s.vgm_pos + 3 + vgm_data_u32 s (s.vgm_pos + 3) := Nat.mod_eq_of_lt (by omega)
    rw [h4]
    rw [Nat.mod_eq_of_lt (by omega)]
    omega

theorem vgm_step_eos (T : Nat) (s : VgmState) (h : vgm_data_at s s.vgm_pos = 0x66) :
    vgm_step T s = ({ s with vgm_pos := 0 }, true) := by
  unfold vgm_step
  rw [vgm_dispatch_eos s h]

theorem vgm_step_unrecognised (T : Nat) (s : VgmState)
    (h : unrecognised (vgm_data_at s s.vgm_pos)) (hw : s.vgm_wait ≤ (VGM_FACTOR T : Nat)) :
    vgm_step T s = ({ s with vgm_wait := 0 }, false) := by
  unfold vgm_step
  rw [vgm_dispatch_unrecognised s h]
  simp only
  rw [if_neg (by omega)]

/-- An unrecognised opcode at the cursor keeps the loop spinning: no amount of
fuel is enough. -/
theorem vgm_loop_stuck (T : Nat) (fuel : Nat) (s : VgmState) (hp : s.vgm_pos < s.vgm_end)
    (h : unrecognised (vgm_data_at s s.vgm_pos)) (hw : s.vgm_wait ≤ (VGM_FACTOR T : Nat)) :
    vgm_loop T fuel s = none := by
  induction fuel generalizing s with
  | zero => simp [vgm_loop, hp]
  | succ k ih =>
    have hs : SameStream s { s with vgm_wait := 0 } := ⟨rfl, rfl, rfl⟩
    unfold vgm_loop
    rw [if_pos hp, vgm_step_unrecognised T s h hw]
    simp only
    apply ih
    · exact hp
    · rw [vgm_data_at_congr hs]; exact h
    · simp

/-- On a stream that parses from the cursor, the loop finishes within the fuel
that the parse needs. -/
theorem vgm_loop_terminates (T : Nat) (n : Nat) (s : VgmState)
    (hparse : parsesFrom s n s.vgm_pos = true) (hend : s.vgm_end < U32) :
    ∃ r, vgm_loop T n s = some r := by
  induction n generalizing s with
  | zero =>
    simp only [parsesFrom, decide_eq_true_eq] at hparse
    exact ⟨s, by simp [vgm_loop, hparse]⟩
  | succ k ih =>
    unfold vgm_loop
    by_cases hp : s.vgm_pos < s.vgm_end
    · rw [if_pos hp]
      have hne : s.vgm_pos ≠ s.vgm_end := Nat.ne_of_lt hp
      unfold parsesFrom at hparse
      rw [if_neg hne, if_pos hp] at hparse
      by_cases he : vgm_data_at s s.vgm_pos = 0x66
      · rw [vgm_step_eos T s he]
        exact ⟨_, rfl⟩
      · rw [if_neg he] at hparse
        cases hl : cmdLength s s.vgm_pos with
        | none => rw [hl] at hparse; cases hparse
        | some len =>
          rw [hl] at hparse
          simp only [Bool.and_eq_true, decide_eq_true_eq] at hparse
          obtain ⟨hle, hrest⟩ := hparse
          have hadv := vgm_dispatch_advance s len hl he (by omega)
          have hpos := vgm_step_pos T s
          have hsame := vgm_step_sameStream T s
          rcases hst : vgm_step T s with ⟨s1, b⟩
          rw [hst] at hpos hsame
          simp only at hpos hsame
          cases b
          · simp only
            apply ih
            · rw [parsesFrom_congr hsame, hpos, hadv.1]; exact hrest
            · rw [hsame.2.2]; exact hend
          · exact ⟨s1, rfl⟩
    · rw [if_neg hp]
      exact ⟨s, rfl⟩

theorem atCursor_sameStream (s : VgmState) (p : Nat) (w : Int) :
    SameStream s (atCursor s p w) := ⟨rfl, rfl, rfl⟩

theorem atCursor_self (s : VgmState) : atCursor s s.vgm_pos s.vgm_wait = s := rfl

theorem vgm_ticks_succ (T f n : Nat) (s : VgmState) :
    vgm_ticks T f (n + 1) s = (vgm_ticks T f n s).bind (vgm_int T f) := by
  induction n generalizing s with
  | zero =>
    simp only [vgm_ticks, Option.some_bind]
    cases h : vgm_int T f s <;> rfl
  | succ k ih =>
    rw [vgm_ticks]
    cases h : vgm_int T f s with
    | none => simp [vgm_ticks, h]
    | some s1 =>
      simp only
      rw [ih s1]
      conv_rhs => rw [vgm_ticks, h]

theorem vgm_loop_done (T f : Nat) (s : VgmState) (h : ¬ s.vgm_pos < s.vgm_end) :
    vgm_loop T f s = some s := by
  cases f <;> simp [vgm_loop, h]

theorem vgm_step_wait62 (T : Nat) (s : VgmState) (hc : vgm_data_at s s.vgm_pos = 0x62)
    (h1 : s.vgm_pos + 1 < U32) :
    vgm_step T s =
      if VGM_FACTOR T < 735 then (atCursor s (s.vgm_pos + 1) 735, true)
      else (atCursor s (s.vgm_pos + 1) 0, false) := by
  unfold vgm_step
  rw [vgm_dispatch_wait62 s hc, Nat.mod_eq_of_lt h1]
  simp only
  by_cases hq : VGM_FACTOR T < 735
  · rw [if_pos (by omega), if_pos hq]
    rfl
  · rw [if_neg (by omega), if_neg hq]
    rfl

theorem tick_wait (T f : Nat) (s : VgmState) (p : Nat) (w : Int) (hw : w > 0) :
    vgm_int T f (atCursor s p w) = some (atCursor s p (w - (VGM_FACTOR T : Nat))) := by
  unfold vgm_int
  rw [if_pos (show (atCursor s p w).vgm_wait > 0 from hw)]
  rfl

theorem tick_decode62 (T f N : Nat) (s : VgmState) (hN : N < U32) (he : s.vgm_end = N)
    (hb : ∀ i, i < N → vgm_data_at s i = 0x62) (p : Nat) (w : Int)
    (hp : p < N) (hw : w ≤ 0) (hq : VGM_FACTOR T < 735) :
    vgm_int T (f + 1) (atCursor s p w) = some (atCursor s (p + 1) 735) := by
  have hc : vgm_data_at (atCursor s p w) (atCursor s p w).vgm_pos = 0x62 := by
    rw [vgm_data_at_congr (atCursor_sameStream s p w)]
    exact hb p hp
  have hlt : (atCursor s p w).vgm_pos < (atCursor s p w).vgm_end := by
    show p < s.vgm_end
    omega
  unfold vgm_int
  rw [if_neg (show ¬ (atCursor s p w).vgm_wait > 0 from not_lt.mpr hw)]
  unfold vgm_loop
  rw [if_pos hlt, vgm_step_wait62 T _ hc (show p + 1 < U32 by omega), if_pos hq]
  rfl

theorem loop_all62 (T N : Nat) (s : VgmState) (hN : N < U32) (he : s.vgm_end = N)
    (hb : ∀ i, i < N → vgm_data_at s i = 0x62) (hq : 735 ≤ VGM_FACTOR T) (k p : Nat)
    (hk : p + k = N) :
    vgm_loop T k (atCursor s p 0) = some (atCursor s N 0) := by
  induction k generalizing p with
  | zero =>
    have : p = N := by omega
    subst this
    exact vgm_loop_done T 0 _ (by show ¬ p < s.vgm_end; omega)
  | succ j ih =>
    have hc : vgm_data_at (atCursor s p 0) (atCursor s p 0).vgm_pos = 0x62 := by
      rw [vgm_data_at_congr (atCursor_sameStream s p 0)]
      exact hb p (by omega)
    have hlt : (atCursor s p 0).vgm_pos < (atCursor s p 0).vgm_end := by
      show p < s.vgm_end
      omega
    unfold vgm_loop
    rw [if_pos hlt, vgm_step_wait62 T _ hc (show p + 1 < U32 by omega),
      if_neg (by omega)]
    exact ih (p + 1) (by omega)

theorem ticks_idle (T f N : Nat) (s : VgmState) (he : s.vgm_end = N) (n : Nat) :
    vgm_ticks T f n (atCursor s N 0) = some (atCursor s N 0) := by
  induction n with
  | zero => rfl
  | succ k ih =>
    rw [vgm_ticks_succ, ih, Option.some_bind]
    unfold vgm_int
    rw [if_neg (show ¬ (atCursor s N 0).vgm_wait > 0 from lt_irrefl (0 : Int))]
    exact vgm_loop_done T f _ (by show ¬ N < s.vgm_end; omega)

/-- With a quantum below 735 samples, tick `j * P + i + 1` (where
`P = 1 + ⌈735 / Q⌉`) finds the decoder `i` ticks into the wait of command `j`. -/
theorem ticks_slow62 (T f N : Nat) (s : VgmState) (hN : N < U32) (he : s.vgm_end = N)
    (hb : ∀ i, i < N → vgm_data_at s i = 0x62) (hp0 : s.vgm_pos = 0) (hw0 : s.vgm_wait = 0)
    (hq1 : 1 ≤ VGM_FACTOR T) (hq : VGM_FACTOR T < 735) (j : Nat) (hj : j < N) :
    ∀ i, i < 1 + (735 + VGM_FACTOR T - 1) / VGM_FACTOR T →
      vgm_ticks T (f + 1) (j * (1 + (735 + VGM_FACTOR T - 1) / VGM_FACTOR T) + i + 1) s
        = some (atCursor s (j + 1) (735 - ((i * VGM_FACTOR T : Nat) : Int))) := by
  generalize hQ : VGM_FACTOR T = Q at hq1 hq ⊢
  generalize hc : (735 + Q - 1) / Q = c
  have hcQ1 : 735 ≤ c * Q := by
    have h1 := Nat.div_add_mod (735 + Q - 1) Q
    have h2 := Nat.mod_lt (735 + Q - 1) (show Q > 0 by omega)
    rw [hc] at h1
    have h3 : Q * c = c * Q := Nat.mul_comm _ _
    omega
  have hcQ2 : ∀ i, i < c → i * Q < 735 := by
    intro i hi
    have h1 := Nat.div_mul_le_self (735 + Q - 1) Q
    rw [hc] at h1
    have h2 : (i + 1) * Q ≤ c * Q := Nat.mul_le_mul_right _ hi
    have h3 : (i + 1) * Q = i * Q + Q := by ring
    omega
  have hs0 : s = atCursor s 0 0 := by
    have := atCursor_self s
    rw [hp0, hw0] at this
    exact this.symm
  induction j with
  | zero =>
    intro i hi
    induction i with
    | zero =>
      simp only [Nat.zero_mul, Nat.zero_add, vgm_ticks]
      have := tick_decode62 T f N s hN he hb 0 0 hj (le_refl _) (by rw [hQ]; exact hq)
      rw [← hs0] at this
      rw [this]
      simp
    | succ k ih =>
      have ih := ih (by omega)
      have e : 0 * (1 + c) + (k + 1) + 1 = (0 * (1 + c) + k + 1) + 1 := by omega
      rw [e, vgm_ticks_succ, ih, Option.some_bind]
      have hk := hcQ2 k (by omega)
      rw [tick_wait T (f + 1) s _ _ (by omega), hQ]
      congr 2
      push_cast
      ring
  | succ j' ihj =>
    intro i hi
    induction i with
    | zero =>
      have hprev := ihj (by omega) c (by omega)
      have e : (j' + 1) * (1 + c) + 0 + 1 = (j' * (1 + c) + c + 1) + 1 := by ring
      rw [e, vgm_ticks_succ, hprev, Option.some_bind]
      rw [tick_decode62 T f N s hN he hb (j' + 1) _ hj
        (by have : ((735 : Nat) : Int) ≤ ((c * Q : Nat) : Int) := by exact_mod_cast hcQ1
            omega)
        (by rw [hQ]; exact hq)]
      simp
    | succ k ih =>
      have ih := ih (by omega)
      have e : (j' + 1) * (1 + c) + (k + 1) + 1 = ((j' + 1) * (1 + c) + k + 1) + 1 := by omega
      rw [e, vgm_ticks_succ, ih, Option.some_bind]
      have hk := hcQ2 k (by omega)
      rw [tick_wait T (f + 1) s _ _ (by omega), hQ]
      congr 2
      push_cast
      ring

/-! ## C1: outcome of `VgmLoad` -/

/-- C1: for every file that holds the whole header (228 bytes or more, size an
`int`), `VgmLoad` returns `NULL` exactly when the chip probe succeeds, the file
is read, its first four bytes are `"Vgm "`, `EoFoffset` equals `size - 4` and
`Version` is at least `0x151`; otherwise it returns the message of the first
check that fails, in the order detection, read, magic, size, version. -/
theorem C1_VgmLoad_result (A B : Nat) (file : Option Buffer) (s : VgmState)
    (hsize : ∀ b ∈ file, 228 ≤ b.size ∧ b.size < 2 ^ 31) :
    ((VgmLoad A B file s).1 = none ↔
      ((vgm_opl_detect A B s).1 = true ∧
        ∃ b, file = some b ∧ b.hasMagic ∧ b.field 4 = b.size - 4 ∧ 0x151 ≤ b.field 8)) ∧
    (VgmLoad A B file s).1 =
      (if (vgm_opl_detect A B s).1 = false then some "OPL2 not detected!"
       else match file with
        | none => some "could not read file"
        | some b =>
          if ¬ b.hasMagic then some "VGM header error."
          else if b.field 4 ≠ b.size - 4 then some "VGM format error."
          else if b.field 8 < 0x151 then some "only VGM >= 1.51 is supported."
          else none) := by
  refine ⟨?_, VgmLoad_message A B file s hsize⟩
  rw [VgmLoad_message A B file s hsize]
  cases hp : (vgm_opl_detect A B s).1
  · simp
  · cases file with
    | none => simp
    | some b =>
      by_cases hm : b.hasMagic
      · by_cases hf : b.field 4 = b.size - 4
        · by_cases hv : b.field 8 < 0x151
          · simp [hm, hf, hv]
          · simp [hm, hf, hv]; omega
        · simp [hm, hf]
      · simp [hm]

/-- Instance of C1: with the chip present, the 229-byte version-1.51 file with
the one-byte stream `0x66` loads successfully. -/
theorem C1_VgmLoad_result_witness :
    (∀ b ∈ some (Buffer.ofList (vgmFile 0x51 0x01 [0x66])), 228 ≤ b.size ∧ b.size < 2 ^ 31) ∧
    (VgmLoad 0x00 0xC0 (some (Buffer.ofList (vgmFile 0x51 0x01 [0x66])))
      (VgmState.init (fun _ => 0))).1 = none :=
  have hsz : ∀ b ∈ some (Buffer.ofList (vgmFile 0x51 0x01 [0x66])),
      228 ≤ b.size ∧ b.size < 2 ^ 31 := by
    intro b hb
    cases hb
    rw [sample_size]
    decide
  ⟨hsz, (C1_VgmLoad_result 0x00 0xC0 _ (VgmState.init (fun _ => 0)) hsz).1.mpr
    ⟨by rw [vgm_opl_detect_eq]; decide,
     Buffer.ofList (vgmFile 0x51 0x01 [0x66]), rfl, by decide, by decide, by decide⟩⟩

/-! ## C2: state left behind by a failed `VgmLoad` -/

/-- C2 fails as stated: a track `0x62 0x66` is playing and has been ticked once
(cursor 1); `VgmLoad` is then called while the probe reads status `0xFF`.  It
returns "OPL2 not detected!" and leaves the hook installed and the track in
place (`vgm_data` set, `vgm_end = 2`, cursor 1); a following `VgmPlay` is not a
no-op, it moves the cursor back to 0. -/
theorem C2_detection_failure_keeps_track :
    (vgm_int 1000 1 (playing [0x62, 0x66])).map
      (fun s =>
        let r := VgmLoad 0xFF 0x00 (some (Buffer.ofList (vgmFile 0x51 0x01 [0x66]))) s
        (r.1, r.2.hook, r.2.vgm_data, r.2.vgm_end, r.2.vgm_pos, (VgmPlay r.2).vgm_pos))
      = some (some "OPL2 not detected!", true, some { blk := 0, off := 228 }, 2, 1, 0) := by
  decide

/-- C2 as amended: when `VgmLoad` returns an error after the chip probe
succeeded (read, magic, size or version failure), then from whatever state it
was called `vgm_data` is `NULL`, cursor, length and wait are 0, the hook is not
installed and a following `VgmPlay` changes nothing; when the probe fails,
`VgmLoad` returns before `VgmDiscard`, and the statics and the hook are exactly
what they were before the call. -/
theorem C2_failed_load_state (A B : Nat) (file : Option Buffer) (s : VgmState)
    (herr : (VgmLoad A B file s).1 ≠ none) :
    ((vgm_opl_detect A B s).1 = true →
      (VgmLoad A B file s).2.vgm_data = none ∧ (VgmLoad A B file s).2.hook = false ∧
      (VgmLoad A B file s).2.vgm_pos = 0 ∧ (VgmLoad A B file s).2.vgm_end = 0 ∧
      (VgmLoad A B file s).2.vgm_wait = 0 ∧
      VgmPlay (VgmLoad A B file s).2 = (VgmLoad A B file s).2) ∧
    ((vgm_opl_detect A B s).1 = false →
      (VgmLoad A B file s).2.vgm = s.vgm ∧ (VgmLoad A B file s).2.vgm_header = s.vgm_header ∧
      (VgmLoad A B file s).2.vgm_data = s.vgm_data ∧ (VgmLoad A B file s).2.vgm_pos = s.vgm_pos ∧
      (VgmLoad A B file s).2.vgm_end = s.vgm_end ∧ (VgmLoad A B file s).2.vgm_wait = s.vgm_wait ∧
      (VgmLoad A B file s).2.hook = s.hook) := by
  have key : (vgm_opl_detect A B s).1 = true → (VgmLoad A B file s).2.vgm_data = none ∧
      (VgmLoad A B file s).2.hook = false ∧
      (VgmLoad A B file s).2.vgm_pos = 0 ∧ (VgmLoad A B file s).2.vgm_end = 0 ∧
      (VgmLoad A B file s).2.vgm_wait = 0 := by
    intro hd
    rw [vgm_opl_detect_eq] at hd
    simp only at hd
    rw [VgmLoad_eq] at herr ⊢
    simp only [hd, Bool.true_eq_false, if_false] at herr ⊢
    cases file with
    | none => simp [VgmDiscard_eq]
    | some b =>
      simp only at herr ⊢
      by_cases c1 : b.hasMagic
      · by_cases c2 : (b.field 4 : Int) ≠ ((b.size : Int) - 4) % (U32 : Int)
        · simp [c1, c2, readState, VgmDiscard_eq]
        · by_cases c3 : b.field 8 < 0x151
          · simp [c1, c2, c3, readState, VgmDiscard_eq]
          · simp [c1, c2, c3] at herr
      · simp [c1, readState, VgmDiscard_eq]
  refine ⟨fun hd => ?_, fun hd => ?_⟩
  · obtain ⟨h1, h2, h3, h4, h5⟩ := key hd
    exact ⟨h1, h2, h3, h4, h5, VgmPlay_of_no_data _ h1⟩
  · rw [vgm_opl_detect_eq] at hd
    simp only at hd
    rw [VgmLoad_eq]
    simp only [hd, if_true]
    rw [probeState_eq]
    simp

/-- Instance of the amended C2: a version-1.00 file is rejected while a track
is playing and the chip is present; the controller ends up unloaded. -/
theorem C2_failed_load_state_witness :
    (VgmLoad 0x00 0xC0 (some (Buffer.ofList (vgmFile 0x00 0x01 [0x66])))
        (playing [0x62, 0x66])).1 ≠ none ∧
    (vgm_opl_detect 0x00 0xC0 (playing [0x62, 0x66])).1 = true ∧
    (VgmLoad 0x00 0xC0 (some (Buffer.ofList (vgmFile 0x00 0x01 [0x66])))
        (playing [0x62, 0x66])).2.hook = false :=
  have h1 : (VgmLoad 0x00 0xC0 (some (Buffer.ofList (vgmFile 0x00 0x01 [0x66])))
        (playing [0x62, 0x66])).1 ≠ none := by decide
  have h2 : (vgm_opl_detect 0x00 0xC0 (playing [0x62, 0x66])).1 = true := by decide
  ⟨h1, h2, ((C2_failed_load_state 0x00 0xC0 _ _ h1).1 h2).2.1⟩

/-! ## C3: one release per successful read -/

/-- C3: the code breaks the claim.  From program start, `VgmLoad` of a
version-1.00 file (chip present) followed by `shutdown_vgm` passes block 0, the
only block ever read, to `filesystem_free` twice. -/
theorem C3_rejected_buffer_released_twice :
    (runCalls [Call.load 0x00 0xC0 (some (Buffer.ofList (vgmFile 0x00 0x01 [0x66]))),
               Call.shutdown] (VgmState.init (fun _ => 0))).heap_freed = [0, 0] ∧
    (runCalls [Call.load 0x00 0xC0 (some (Buffer.ofList (vgmFile 0x00 0x01 [0x66]))),
               Call.shutdown] (VgmState.init (fun _ => 0))).heap_next = 1 ∧
    releaseCount (runCalls [Call.load 0x00 0xC0 (some (Buffer.ofList (vgmFile 0x00 0x01 [0x66]))),
               Call.shutdown] (VgmState.init (fun _ => 0))) 0 = 2 := by
  decide

/-! ## C4: a rejected file is released once before `VgmLoad` returns -/

/-- C4: after any sequence of calls, with the chip present, a file that is
valid except for a `Version` below `0x151` makes `VgmLoad` return the
unsupported-version message; and whenever `VgmLoad` returns the version, magic
or size message, the block it has just read (the one `vgm` still points at) has
been passed to `filesystem_free` exactly once by the time it returns. -/
theorem C4_validation_failure_releases_once (cs : List Call) (regs : Nat → Nat) (A B : Nat)
    (b : Buffer) :
    ((vgm_opl_detect A B (runCalls cs (VgmState.init regs))).1 = true →
      228 ≤ b.size → b.size < 2 ^ 31 →
      b.hasMagic → b.field 4 = b.size - 4 → b.field 8 < 0x151 →
      (VgmLoad A B (some b) (runCalls cs (VgmState.init regs))).1
        = some "only VGM >= 1.51 is supported.") ∧
    ((VgmLoad A B (some b) (runCalls cs (VgmState.init regs))).1
          = some "only VGM >= 1.51 is supported." ∨
      (VgmLoad A B (some b) (runCalls cs (VgmState.init regs))).1 = some "VGM header error." ∨
      (VgmLoad A B (some b) (runCalls cs (VgmState.init regs))).1 = some "VGM format error." →
      (VgmLoad A B (some b) (runCalls cs (VgmState.init regs))).2.vgm
        = some { blk := (runCalls cs (VgmState.init regs)).heap_next, off := 0 } ∧
      releaseCount (VgmLoad A B (some b) (runCalls cs (VgmState.init regs))).2
        (runCalls cs (VgmState.init regs)).heap_next = 1) := by
  have hs := HeapOk_runCalls cs _ (HeapOk_init regs)
  generalize runCalls cs (VgmState.init regs) = s at hs ⊢
  have hk := HeapOk_VgmDiscard _ (HeapOk_probeState s hs)
  have hn : (VgmDiscard (probeState s)).heap_next = s.heap_next := by
    rw [VgmDiscard_eq, probeState_eq]
  have hrej : ∀ hdr, (rejectState hdr b (VgmDiscard (probeState s))).vgm
        = some { blk := s.heap_next, off := 0 } ∧
      releaseCount (rejectState hdr b (VgmDiscard (probeState s))) s.heap_next = 1 := by
    intro hdr
    refine ⟨?_, ?_⟩
    · simp [rejectState, readState, hn]
    · rw [← hn]; exact releaseCount_rejectState hdr b _ hk
  refine ⟨?_, ?_⟩
  · intro hd h1 h2 hm hf hv
    rw [VgmLoad_message A B (some b) s (by intro x hx; cases hx; exact ⟨h1, h2⟩)]
    simp [hd, hm, hf, hv]
  · intro herr
    rcases VgmLoad_cases A B (some b) s with ⟨_, e⟩ | ⟨_, _, e⟩ | ⟨b1, _, hb, _, e⟩ |
      ⟨b1, _, hb, _, _, e⟩ | ⟨b1, _, hb, _, _, _, e⟩ | ⟨b1, _, hb, _, _, _, e⟩
    · rw [e] at herr; simp at herr
    · rw [e] at herr; simp at herr
    · cases hb; rw [e]; exact hrej false
    · cases hb; rw [e]; exact hrej true
    · cases hb; rw [e]; exact hrej true
    · rw [e] at herr; simp at herr


/-- Instance of C4: the version-1.00 file of the scenario, loaded right after an
earlier load of the same file was rejected. -/
theorem C4_validation_failure_releases_once_witness :
    (vgm_opl_detect 0x00 0xC0
      (runCalls [Call.load 0x00 0xC0 (some (Buffer.ofList (vgmFile 0x00 0x01 [0x66])))]
        (VgmState.init (fun _ => 0)))).1 = true ∧
    (Buffer.ofList (vgmFile 0x00 0x01 [0x66])).hasMagic ∧
    (Buffer.ofList (vgmFile 0x00 0x01 [0x66])).field 8 < 0x151 ∧
    (VgmLoad 0x00 0xC0 (some (Buffer.ofList (vgmFile 0x00 0x01 [0x66])))
      (runCalls [Call.load 0x00 0xC0 (some (Buffer.ofList (vgmFile 0x00 0x01 [0x66])))]
        (VgmState.init (fun _ => 0)))).1 = some "only VGM >= 1.51 is supported." ∧
    releaseCount (VgmLoad 0x00 0xC0 (some (Buffer.ofList (vgmFile 0x00 0x01 [0x66])))
      (runCalls [Call.load 0x00 0xC0 (some (Buffer.ofList (vgmFile 0x00 0x01 [0x66])))]
        (VgmState.init (fun _ => 0)))).2
      (runCalls [Call.load 0x00 0xC0 (some (Buffer.ofList (vgmFile 0x00 0x01 [0x66])))]
        (VgmState.init (fun _ => 0))).heap_next = 1 :=
  have hv := (C4_validation_failure_releases_once
    [Call.load 0x00 0xC0 (some (Buffer.ofList (vgmFile 0x00 0x01 [0x66])))] (fun _ => 0)
    0x00 0xC0 (Buffer.ofList (vgmFile 0x00 0x01 [0x66]))).1
    (by decide) (by decide) (by decide) (by decide) (by decide) (by decide)
  ⟨by decide, by decide, by decide, hv,
    ((C4_validation_failure_releases_once
      [Call.load 0x00 0xC0 (some (Buffer.ofList (vgmFile 0x00 0x01 [0x66])))] (fun _ => 0)
      0x00 0xC0 (Buffer.ofList (vgmFile 0x00 0x01 [0x66]))).2 (Or.inl hv)).2⟩


/-! ## C5: `VgmPlay` -/

/-- C6: for every state, a second `VgmStop` leaves every static, the hook and
the chip (address latch and register file) exactly as the first one left them;
only the record of port writes grows.  After `VgmStop` the hook is not
installed and each of the 256 registers holds zero. -/
theorem C6_VgmStop_idempotent (s : VgmState) :
    VgmStop (VgmStop s) = { VgmStop s with opl_writes := (VgmStop (VgmStop s)).opl_writes } ∧
    (VgmStop s).hook = false ∧
    ∀ r, r < 256 → (VgmStop s).opl_regs r = 0 := by
  refine ⟨?_, ?_, ?_⟩
  · rw [VgmStop_eq (VgmStop s), VgmStop_eq s]
    simp only
    congr 1
    funext r
    by_cases h : r ≤ 255 <;> simp [h]
  · rw [VgmStop_eq]
  · intro r hr
    rw [VgmStop_eq]
    have : r ≤ 255 := by omega
    simp [this]


/-- Instance of C6: register `0xB0` after stopping a playing track. -/
theorem C6_VgmStop_idempotent_witness :
    (0xB0 < 256) ∧ (VgmStop (playing [0x62, 0x66])).opl_regs 0xB0 = 0 :=
  ⟨by decide, (C6_VgmStop_idempotent (playing [0x62, 0x66])).2.2 0xB0 (by decide)⟩


/-! ## C7: data blocks -/

/-- C7 fails as stated: in the stream `0x67 0x66 0x00 0xFF 0xFF 0xFF 0xFF` the
size field holds `0xFFFFFFFF`; decoding the block at cursor 0 leaves the 32-bit
cursor at 6, on the last byte of the size field, and not `3 + 4 + 0xFFFFFFFF`
bytes further. -/
theorem C7_block_size_wraps :
    vgm_data_at (playing [0x67, 0x66, 0x00, 0xFF, 0xFF, 0xFF, 0xFF]) 0 = 0x67 ∧
    (playing [0x67, 0x66, 0x00, 0xFF, 0xFF, 0xFF, 0xFF]).vgm_pos = 0 ∧
    vgm_data_u32 (playing [0x67, 0x66, 0x00, 0xFF, 0xFF, 0xFF, 0xFF]) 3 = 4294967295 ∧
    (vgm_dispatch (playing [0x67, 0x66, 0x00, 0xFF, 0xFF, 0xFF, 0xFF])).1.vgm_pos = 6 ∧
    (vgm_dispatch (playing [0x67, 0x66, 0x00, 0xFF, 0xFF, 0xFF, 0xFF])).1.vgm_pos
      ≠ 0 + (3 + 4 + 4294967295) := by
  decide

/-- C7 as amended: a data block `0x67` at the cursor (with `cursor + 3` below
`2^32`) whose size field at `cursor + 3` holds `n` sets the cursor to
`(cursor + 3 + 4 + n) mod 2^32` and changes nothing else: no chip write, and no
byte other than the opcode and the size field is read.  When
`cursor + 3 + 4 + n` is below `2^32` this is an advance of exactly `3 + 4 + n`
bytes.  For the stream `0x67 0x66 0x00 0x04 0x00 0x00 0x00`, four bytes of
payload, `0x66`, one tick from cursor 0 moves to offset 11, decodes the
end-of-stream opcode there (cursor back to 0) and writes nothing to the chip,
whatever the payload bytes are. -/
theorem C7_data_block (T : Nat) (s : VgmState) :
    (vgm_data_at s s.vgm_pos = 0x67 → s.vgm_pos + 3 < 2 ^ 32 →
      vgm_dispatch s =
        ({ s with vgm_pos :=
            (s.vgm_pos + (3 + 4 + vgm_data_u32 s (s.vgm_pos + 3))) % 2 ^ 32 }, false)) ∧
    (vgm_data_at s s.vgm_pos = 0x67 →
      s.vgm_pos + (3 + 4 + vgm_data_u32 s (s.vgm_pos + 3)) < 2 ^ 32 →
      vgm_dispatch s =
        ({ s with vgm_pos := s.vgm_pos + (3 + 4 + vgm_data_u32 s (s.vgm_pos + 3)) }, false)) ∧
    (s.vgm_pos = 0 → s.vgm_end = 12 → s.vgm_wait ≤ 0 →
      vgm_data_at s 0 = 0x67 → vgm_data_at s 1 = 0x66 → vgm_data_at s 2 = 0x00 →
      vgm_data_at s 3 = 0x04 → vgm_data_at s 4 = 0x00 → vgm_data_at s 5 = 0x00 →
      vgm_data_at s 6 = 0x00 → vgm_data_at s 11 = 0x66 →
      vgm_step T s = ({ s with vgm_pos := 11, vgm_wait := 0 }, false) ∧
      vgm_step T { s with vgm_pos := 11, vgm_wait := 0 }
        = ({ s with vgm_pos := 0, vgm_wait := 0 }, true) ∧
      vgm_int T 2 s = some { s with vgm_pos := 0, vgm_wait := 0 } ∧
      ({ s with vgm_pos := 0, vgm_wait := 0 } : VgmState).opl_writes = s.opl_writes) := by
  have gen : vgm_data_at s s.vgm_pos = 0x67 → s.vgm_pos + 3 < 2 ^ 32 →
      vgm_dispatch s =
        ({ s with vgm_pos :=
            (s.vgm_pos + (3 + 4 + vgm_data_u32 s (s.vgm_pos + 3))) % 2 ^ 32 }, false) := by
    intro h h3
    rw [vgm_dispatch_block s h]
    have e3 : (s.vgm_pos + 3) % U32 = s.vgm_pos + 3 := Nat.mod_eq_of_lt h3
    rw [e3]
    have : ((s.vgm_pos + 3 + vgm_data_u32 s (s.vgm_pos + 3)) % U32 + 4) % U32
        = (s.vgm_pos + (3 + 4 + vgm_data_u32 s (s.vgm_pos + 3))) % 2 ^ 32 := by
      simp only [U32]
      omega
    rw [this]
  have nowrap : vgm_data_at s s.vgm_pos = 0x67 →
      s.vgm_pos + (3 + 4 + vgm_data_u32 s (s.vgm_pos + 3)) < 2 ^ 32 →
      vgm_dispatch s =
        ({ s with vgm_pos := s.vgm_pos + (3 + 4 + vgm_data_u32 s (s.vgm_pos + 3)) }, false) := by
    intro h hw
    rw [gen h (by omega), Nat.mod_eq_of_lt hw]
  refine ⟨gen, nowrap, ?_⟩
  intro hp he hwait b0 _ _ b3 b4 b5 b6 b11
  have hsz : vgm_data_u32 s (s.vgm_pos + 3) = 4 := by
    simp [vgm_data_u32, hp, b3, b4, b5, b6]
  have hd := nowrap (by rw [hp]; exact b0) (by rw [hsz, hp]; decide)
  rw [hsz, hp] at hd
  have st1 : vgm_step T s = ({ s with vgm_pos := 11, vgm_wait := 0 }, false) := by
    unfold vgm_step
    rw [hd]
    simp only
    rw [if_neg (by omega)]
  have hs : SameStream s { s with vgm_pos := 11, vgm_wait := 0 } := ⟨rfl, rfl, rfl⟩
  have st2 : vgm_step T { s with vgm_pos := 11, vgm_wait := 0 }
      = ({ s with vgm_pos := 0, vgm_wait := 0 }, true) := by
    rw [vgm_step_eos T _ (by rw [vgm_data_at_congr hs]; exact b11)]
  refine ⟨st1, st2, ?_, rfl⟩
  unfold vgm_int
  rw [if_neg (by omega)]
  unfold vgm_loop
  rw [if_pos (by rw [hp, he]; decide), st1]
  simp only
  unfold vgm_loop
  rw [if_pos (by simp [he]), st2]

/-- Instance of the amended C7: the payload bytes `0x5a 0xB0 0x21 0x66` would be
a register write followed by end-of-stream if they were decoded. -/
theorem C7_data_block_witness :
    (playing [0x67, 0x66, 0x00, 0x04, 0x00, 0x00, 0x00, 0x5a, 0xB0, 0x21, 0x66, 0x66]).vgm_end = 12 ∧
    vgm_data_at (playing [0x67, 0x66, 0x00, 0x04, 0x00, 0x00, 0x00, 0x5a, 0xB0, 0x21, 0x66, 0x66]) 7
      = 0x5a ∧
    vgm_int 44100 2 (playing [0x67, 0x66, 0x00, 0x04, 0x00, 0x00, 0x00, 0x5a, 0xB0, 0x21, 0x66, 0x66])
      = some { playing [0x67, 0x66, 0x00, 0x04, 0x00, 0x00, 0x00, 0x5a, 0xB0, 0x21, 0x66, 0x66]
               with vgm_pos := 0, vgm_wait := 0 } :=
  ⟨by decide, by decide,
    ((C7_data_block 44100
      (playing [0x67, 0x66, 0x00, 0x04, 0x00, 0x00, 0x00, 0x5a, 0xB0, 0x21, 0x66, 0x66])).2.2
      (by decide) (by decide) (by decide) (by decide) (by decide) (by decide) (by decide)
      (by decide) (by decide) (by decide) (by decide)).2.2.1⟩


/-! ## C8: end of stream -/

/-- C8: when the loop dispatches opcode `0x66` at the cursor, the cursor becomes
0, the loop is left, and nothing else changes (no chip write); if the tick
started decoding at that command, it returns this state, and the next tick
enters the decode loop with the cursor at 0.  For the one-byte stream `0x66`,
load, start and one tick leave the cursor at 0 and the record of chip writes as
it was. -/
theorem C8_end_of_stream (T fuel : Nat) (s : VgmState) :
    (s.vgm_pos < s.vgm_end → vgm_data_at s s.vgm_pos = 0x66 →
      vgm_dispatch s = ({ s with vgm_pos := 0 }, true) ∧
      vgm_loop T (fuel + 1) s = some { s with vgm_pos := 0 } ∧
      ({ s with vgm_pos := 0 } : VgmState).opl_writes = s.opl_writes ∧
      (s.vgm_wait ≤ 0 →
        vgm_int T (fuel + 1) s = some { s with vgm_pos := 0 } ∧
        vgm_int T fuel { s with vgm_pos := 0 } = vgm_loop T fuel { s with vgm_pos := 0 })) ∧
    (∃ r, vgm_int T 1 (playing [0x66]) = some r ∧ r.vgm_pos = 0 ∧
      r.opl_writes = (playing [0x66]).opl_writes) := by
  have gen : ∀ s : VgmState, s.vgm_pos < s.vgm_end → vgm_data_at s s.vgm_pos = 0x66 →
      vgm_loop T (fuel + 1) s = some { s with vgm_pos := 0 } := by
    intro s hp hc
    unfold vgm_loop
    rw [if_pos hp, vgm_step_eos T s hc]
  refine ⟨?_, ?_⟩
  · intro hp hc
    refine ⟨vgm_dispatch_eos s hc, gen s hp hc, rfl, ?_⟩
    intro hw
    refine ⟨?_, ?_⟩
    · unfold vgm_int
      rw [if_neg (by omega)]
      exact gen s hp hc
    · unfold vgm_int
      rw [if_neg (by simp only; omega)]
  · have hp : (playing [0x66]).vgm_pos < (playing [0x66]).vgm_end := by decide
    have hc : vgm_data_at (playing [0x66]) (playing [0x66]).vgm_pos = 0x66 := by decide
    have hw : ¬ (playing [0x66]).vgm_wait > 0 := by decide
    refine ⟨{ playing [0x66] with vgm_pos := 0 }, ?_, rfl, rfl⟩
    unfold vgm_int
    rw [if_neg hw]
    unfold vgm_loop
    rw [if_pos hp, vgm_step_eos T _ hc]

/-- Instance of C8: the cursor on the `0x66` of the stream `0x62 0x66`. -/
theorem C8_end_of_stream_witness :
    ({ playing [0x62, 0x66] with vgm_pos := 1 } : VgmState).vgm_pos
      < ({ playing [0x62, 0x66] with vgm_pos := 1 } : VgmState).vgm_end ∧
    vgm_data_at { playing [0x62, 0x66] with vgm_pos := 1 } 1 = 0x66 ∧
    vgm_loop 1000 1 { playing [0x62, 0x66] with vgm_pos := 1 }
      = some { playing [0x62, 0x66] with vgm_pos := 0 } :=
  ⟨by decide, by decide,
    ((C8_end_of_stream 1000 0 { playing [0x62, 0x66] with vgm_pos := 1 }).1
      (by decide) (by decide)).2.1⟩


/-! ## C9: wait accounting on a stream of `0x62` -/

/-- C9 fails as stated: with `TICKS_PER_SEC = 1000` the quantum is 44; on the
stream `0x62 0x62`, after 2 ticks one command has been decoded (cursor 1, wait
`735 - 44`), so 735 samples have been accounted for, not `2 * 735` to within
44. -/
theorem C9_drift_at_1000_ticks_per_second :
    VGM_FACTOR 1000 = 44 ∧
    (vgm_ticks 1000 2 2 (playing [0x62, 0x62])).map (fun r => (r.vgm_pos, r.vgm_wait))
      = some (1, 691) ∧
    ¬ (2 * 735 - 735 * 1 ≤ VGM_FACTOR 1000) := by
  decide

/-- C9 as amended: on a stream of `N` commands `0x62`, started at cursor 0 with
wait 0, after `N` ticks the number of commands decoded (the cursor) is `N` when
the quantum `Q = VGM_FACTOR` is at least 735, so `N * 735` samples exactly; and
when `1 ≤ Q < 735` it is `⌈N / (1 + ⌈735 / Q⌉)⌉`, each command taking
`1 + ⌈735 / Q⌉` ticks, so `735 * ⌈N / (1 + ⌈735 / Q⌉)⌉` samples. -/
theorem C9_wait_accounting (T N : Nat) (s : VgmState) (hN : N < 2 ^ 32)
    (hp : s.vgm_pos = 0) (hw : s.vgm_wait = 0) (he : s.vgm_end = N)
    (hb : ∀ i, i < N → vgm_data_at s i = 0x62) :
    (735 ≤ VGM_FACTOR T →
      ∃ r, vgm_ticks T N N s = some r ∧ r.vgm_pos = N ∧ 735 * r.vgm_pos = N * 735) ∧
    (1 ≤ VGM_FACTOR T → VGM_FACTOR T < 735 →
      ∃ r, vgm_ticks T N N s = some r ∧
        r.vgm_pos = (N + (1 + (735 + VGM_FACTOR T - 1) / VGM_FACTOR T) - 1)
                      / (1 + (735 + VGM_FACTOR T - 1) / VGM_FACTOR T) ∧
        735 * r.vgm_pos = 735 * ((N + (1 + (735 + VGM_FACTOR T - 1) / VGM_FACTOR T) - 1)
                      / (1 + (735 + VGM_FACTOR T - 1) / VGM_FACTOR T))) := by
  have hs0 : s = atCursor s 0 0 := by
    have := atCursor_self s
    rw [hp, hw] at this
    exact this.symm
  refine ⟨?_, ?_⟩
  · intro hq
    cases N with
    | zero => exact ⟨s, rfl, hp, by rw [hp]⟩
    | succ m =>
      refine ⟨atCursor s (m + 1) 0, ?_, rfl, by show 735 * (m + 1) = (m + 1) * 735; omega⟩
      rw [vgm_ticks]
      have h1 : vgm_int T (m + 1) s = some (atCursor s (m + 1) 0) := by
        unfold vgm_int
        rw [if_neg (by rw [hw]; exact lt_irrefl 0)]
        rw [hs0]
        exact loop_all62 T (m + 1) s hN he hb hq (m + 1) 0 (by omega)
      rw [h1]
      exact ticks_idle T (m + 1) (m + 1) s he m
  · intro hq1 hq
    have key0 := ticks_slow62 T (N - 1) N s hN he hb hp hw hq1 hq
    generalize (735 + VGM_FACTOR T - 1) / VGM_FACTOR T = c at key0 ⊢
    cases N with
    | zero =>
      have h0 : (0 + (1 + c) - 1) / (1 + c) = 0 := Nat.div_eq_of_lt (by omega)
      exact ⟨s, rfl, by rw [hp, h0], by rw [hp, h0]⟩
    | succ m =>
      generalize hP : 1 + c = P at key0 ⊢
      have hPpos : 0 < P := by omega
      have hdiv : (m + 1 + P - 1) / P = m / P + 1 := by
        have : m + 1 + P - 1 = m + P := by omega
        rw [this]
        exact Nat.add_div_right m hPpos
      have hm : m / P * P + m % P + 1 = m + 1 := by
        have := Nat.div_add_mod m P
        have h2 : P * (m / P) = m / P * P := Nat.mul_comm _ _
        omega
      have hj : m / P < m + 1 := Nat.lt_succ_of_le (Nat.div_le_self m P)
      have hi : m % P < P := Nat.mod_lt m hPpos
      have key := key0 (m / P) hj (m % P) hi
      rw [hm] at key
      simp only [Nat.add_sub_cancel] at key
      refine ⟨_, key, ?_, ?_⟩
      · rw [hdiv]; rfl
      · rw [hdiv]; rfl

/-- Instance of the amended C9: two commands at 1000 ticks per second. -/
theorem C9_wait_accounting_witness :
    (2 : Nat) < 2 ^ 32 ∧ (playing [0x62, 0x62]).vgm_end = 2 ∧
    VGM_FACTOR 1000 = 44 ∧
    ∃ r, vgm_ticks 1000 2 2 (playing [0x62, 0x62]) = some r ∧
      r.vgm_pos = (2 + (1 + (735 + VGM_FACTOR 1000 - 1) / VGM_FACTOR 1000) - 1)
                    / (1 + (735 + VGM_FACTOR 1000 - 1) / VGM_FACTOR 1000) ∧
      735 * r.vgm_pos = 735 * ((2 + (1 + (735 + VGM_FACTOR 1000 - 1) / VGM_FACTOR 1000) - 1)
                    / (1 + (735 + VGM_FACTOR 1000 - 1) / VGM_FACTOR 1000)) :=
  ⟨by decide, by decide, by decide,
    (C9_wait_accounting 1000 2 (playing [0x62, 0x62]) (by decide) (by decide) (by decide)
      (by decide) (by decide)).2 (by decide) (by decide)⟩


/-! ## C10: termination of one tick -/

/-- C10 fails as stated: on the one-byte stream `0x00` (an opcode the decoder
does not know), started at cursor 0 with wait 0, `vgm_int` does not return
within any number of dispatches, whatever `TICKS_PER_SEC` is. -/
theorem C10_unrecognised_opcode_never_returns :
    ¬ ∃ T fuel r, vgm_int T fuel (playing [0x00]) = some r := by
  rintro ⟨T, fuel, r, h⟩
  have hw : (playing [0x00]).vgm_wait = 0 := by decide
  have hl := vgm_loop_stuck T fuel (playing [0x00]) (by decide) (by decide)
    (by rw [hw]; exact Int.natCast_nonneg _)
  unfold vgm_int at h
  rw [if_neg (by rw [hw]; decide), hl] at h
  cases h

/-- C10 as amended: when the stream parses from the cursor as a sequence of
complete recognised commands (up to the end of the stream or up to a `0x66`),
then for every wait value one invocation of `vgm_int` returns after at most
`vgm_end` command dispatches. -/
theorem C10_tick_terminates (T : Nat) (s : VgmState) (hend : s.vgm_end < 2 ^ 32)
    (hparse : parsesFrom s s.vgm_end s.vgm_pos = true) :
    ∃ r, vgm_int T s.vgm_end s = some r := by
  unfold vgm_int
  by_cases hw : s.vgm_wait > 0
  · rw [if_pos hw]; exact ⟨_, rfl⟩
  · rw [if_neg hw]
    exact vgm_loop_terminates T s.vgm_end s hparse hend

/-- Instance of the amended C10: a short wait, a register write, a frame wait
and end-of-stream. -/
theorem C10_tick_terminates_witness :
    (playing [0x70, 0x5a, 0xB0, 0x21, 0x62, 0x66]).vgm_end < 2 ^ 32 ∧
    parsesFrom (playing [0x70, 0x5a, 0xB0, 0x21, 0x62, 0x66])
      (playing [0x70, 0x5a, 0xB0, 0x21, 0x62, 0x66]).vgm_end
      (playing [0x70, 0x5a, 0xB0, 0x21, 0x62, 0x66]).vgm_pos = true ∧
    ∃ r, vgm_int 1000 (playing [0x70, 0x5a, 0xB0, 0x21, 0x62, 0x66]).vgm_end
      (playing [0x70, 0x5a, 0xB0, 0x21, 0x62, 0x66]) = some r :=
  ⟨by decide, by decide,
    C10_tick_terminates 1000 (playing [0x70, 0x5a, 0xB0, 0x21, 0x62, 0x66])
      (by decide) (by decide)⟩

/-! ## Wait-producing commands -/

theorem vgm_dispatch_short (s : VgmState)
    (h : 0x70 ≤ vgm_data_at s s.vgm_pos ∧ vgm_data_at s s.vgm_pos < 0x80) :
    vgm_dispatch s =
      ({ s with vgm_wait := 1 + ((vgm_data_at s s.vgm_pos &&& 0x0F : Nat) : Int),
                vgm_pos := (s.vgm_pos + 1) % U32 }, false) := by
  unfold vgm_dispatch
  simp only
  rw [if_pos h]

theorem vgm_dispatch_wait16 (s : VgmState) (h : vgm_data_at s s.vgm_pos = 0x61) :
    vgm_dispatch s =
      ({ s with vgm_wait := (vgm_data_u16 s ((s.vgm_pos + 1) % U32) : Nat),
                vgm_pos := (s.vgm_pos + 3) % U32 }, false) := by
  unfold vgm_dispatch
  simp [h]

theorem vgm_dispatch_wait63 (s : VgmState) (h : vgm_data_at s s.vgm_pos = 0x63) :
    vgm_dispatch s = ({ s with vgm_wait := 882, vgm_pos := (s.vgm_pos + 1) % U32 }, false) := by
  unfold vgm_dispatch
  simp [h]

/-- Dispatch of a wait-producing command whose bytes are addressable by the
32-bit cursor: the wait counter is set to `W` (whatever it held), the cursor
moves by the command's length, nothing else changes. -/
theorem vgm_dispatch_waitOf (s : VgmState) (W : Nat) (hW : waitOf s s.vgm_pos = some W)
    (hw : s.vgm_pos + waitLength s s.vgm_pos < U32) :
    vgm_dispatch s = (atCursor s (s.vgm_pos + waitLength s s.vgm_pos) W, false) := by
  simp only [waitOf] at hW
  unfold waitLength at hw ⊢
  by_cases c1 : 0x70 ≤ vgm_data_at s s.vgm_pos ∧ vgm_data_at s s.vgm_pos < 0x80
  · have hne : vgm_data_at s s.vgm_pos ≠ 0x61 := by omega
    rw [if_pos c1] at hW
    rw [if_neg hne] at hw ⊢
    injection hW with hW
    subst hW
    rw [vgm_dispatch_short s c1, Nat.mod_eq_of_lt hw]
    simp only [atCursor]
    norm_num
  · rw [if_neg c1] at hW
    by_cases c2 : vgm_data_at s s.vgm_pos = 0x61
    · rw [if_pos c2] at hW hw ⊢
      injection hW with hW
      subst hW
      rw [vgm_dispatch_wait16 s c2, Nat.mod_eq_of_lt hw,
        Nat.mod_eq_of_lt (show s.vgm_pos + 1 < U32 by omega)]
      simp only [atCursor, vgm_data_u16, Nat.add_assoc]
    · rw [if_neg c2] at hW hw ⊢
      by_cases c3 : vgm_data_at s s.vgm_pos = 0x62
      · rw [if_pos c3] at hW
        injection hW with hW
        subst hW
        rw [vgm_dispatch_wait62 s c3, Nat.mod_eq_of_lt hw]
        rfl
      · rw [if_neg c3] at hW
        by_cases c4 : vgm_data_at s s.vgm_pos = 0x63
        · rw [if_pos c4] at hW
          injection hW with hW
          subst hW
          rw [vgm_dispatch_wait63 s c4, Nat.mod_eq_of_lt hw]
          rfl
        · rw [if_neg c4] at hW
          cases hW

/-- One loop iteration on a wait-producing command: stop with the wait pending
when it exceeds the quantum, otherwise clear it and go on. -/
theorem vgm_step_waitOf (T : Nat) (s : VgmState) (W : Nat) (hW : waitOf s s.vgm_pos = some W)
    (hw : s.vgm_pos + waitLength s s.vgm_pos < U32) :
    vgm_step T s =
      if VGM_FACTOR T < W then (atCursor s (s.vgm_pos + waitLength s s.vgm_pos) W, true)
      else (atCursor s (s.vgm_pos + waitLength s s.vgm_pos) 0, false) := by
  unfold vgm_step
  rw [vgm_dispatch_waitOf s W hW hw]
  simp only
  by_cases hq : VGM_FACTOR T < W
  · rw [if_pos (by show ((W : Nat) : Int) > (VGM_FACTOR T : Nat); omega), if_pos hq]
  · rw [if_neg (by show ¬ ((W : Nat) : Int) > (VGM_FACTOR T : Nat); omega), if_neg hq]
    rfl

/-! ## C13: a tick with a pending wait -/

/-- C13: in every state with `vgm_wait > 0`, one invocation of `vgm_int`
returns the state with `VGM_FACTOR` subtracted from `vgm_wait` and nothing else
changed (cursor and chip-write record included); no command is dispatched and
no stream byte is read. -/
theorem C13_waiting_tick (T fuel : Nat) (s : VgmState) (h : 0 < s.vgm_wait) :
    vgm_int T fuel s = some { s with vgm_wait := s.vgm_wait - (VGM_FACTOR T : Nat) } ∧
    ({ s with vgm_wait := s.vgm_wait - (VGM_FACTOR T : Nat) } : VgmState).vgm_pos = s.vgm_pos ∧
    ({ s with vgm_wait := s.vgm_wait - (VGM_FACTOR T : Nat) } : VgmState).opl_writes
      = s.opl_writes ∧
    vgm_int_trace T fuel s = [] ∧ vgm_int_reads T fuel s = [] := by
  refine ⟨?_, rfl, rfl, ?_, ?_⟩
  · unfold vgm_int
    rw [if_pos h]
  · unfold vgm_int_trace
    rw [if_pos h]
  · unfold vgm_int_reads vgm_int_trace
    rw [if_pos h]
    rfl

/-- Instance of C13: the tick after the first `0x62` of a playing stream at
1000 ticks per second. -/
theorem C13_waiting_tick_witness :
    0 < (atCursor (playing [0x62, 0x66]) 1 735).vgm_wait ∧
    vgm_int 1000 2 (atCursor (playing [0x62, 0x66]) 1 735)
      = some { atCursor (playing [0x62, 0x66]) 1 735 with
               vgm_wait := (atCursor (playing [0x62, 0x66]) 1 735).vgm_wait
                 - (VGM_FACTOR 1000 : Nat) } :=
  ⟨by decide, (C13_waiting_tick 1000 2 (atCursor (playing [0x62, 0x66]) 1 735) (by decide)).1⟩

/-! ## C14: wait-producing commands -/

/-- C14: for a wait-producing command at the cursor (inside the stream, its
bytes addressable by the 32-bit cursor) with `W = waitOf` samples and length
`waitLength`, one loop iteration moves the cursor by that length; if `W`
exceeds the quantum the loop is left with `vgm_wait = W`, otherwise `vgm_wait`
is set to 0 and the loop goes on with the next command in the same tick. -/
theorem C14_wait_commands (T fuel : Nat) (s : VgmState) (W : Nat)
    (hW : waitOf s s.vgm_pos = some W) (hp : s.vgm_pos < s.vgm_end)
    (hw : s.vgm_pos + waitLength s s.vgm_pos < 2 ^ 32) :
    (VGM_FACTOR T < W →
      vgm_step T s = (atCursor s (s.vgm_pos + waitLength s s.vgm_pos) W, true) ∧
      vgm_loop T (fuel + 1) s = some (atCursor s (s.vgm_pos + waitLength s s.vgm_pos) W)) ∧
    (W ≤ VGM_FACTOR T →
      vgm_step T s = (atCursor s (s.vgm_pos + waitLength s s.vgm_pos) 0, false) ∧
      vgm_loop T (fuel + 1) s
        = vgm_loop T fuel (atCursor s (s.vgm_pos + waitLength s s.vgm_pos) 0)) := by
  have hst := vgm_step_waitOf T s W hW hw
  refine ⟨fun hq => ?_, fun hq => ?_⟩
  · rw [if_pos hq] at hst
    refine ⟨hst, ?_⟩
    unfold vgm_loop
    rw [if_pos hp, hst]
  · rw [if_neg (by omega)] at hst
    refine ⟨hst, ?_⟩
    conv_lhs => unfold vgm_loop
    rw [if_pos hp, hst]

/-- Instance of C14: `0x61 0xE8 0x03` (1000 samples) at 1000 ticks per second
stops the tick with 1000 samples pending, cursor 3. -/
theorem C14_wait_commands_witness :
    waitOf (playing [0x61, 0xE8, 0x03, 0x66]) (playing [0x61, 0xE8, 0x03, 0x66]).vgm_pos
      = some 1000 ∧
    VGM_FACTOR 1000 < 1000 ∧
    vgm_loop 1000 1 (playing [0x61, 0xE8, 0x03, 0x66])
      = some (atCursor (playing [0x61, 0xE8, 0x03, 0x66])
          ((playing [0x61, 0xE8, 0x03, 0x66]).vgm_pos
            + waitLength (playing [0x61, 0xE8, 0x03, 0x66])
                (playing [0x61, 0xE8, 0x03, 0x66]).vgm_pos) 1000) :=
  ⟨by decide, by decide,
    ((C14_wait_commands 1000 0 (playing [0x61, 0xE8, 0x03, 0x66]) 1000
      (by decide) (by decide) (by decide)).1 (by decide)).2⟩

/-! ## C15: unrecognised opcodes -/

/-- C15: with `vgm_wait ≤ 0`, the cursor inside the stream and an unrecognised
opcode at the cursor, the dispatch changes nothing, a loop iteration leaves the
cursor and the chip-write record as they are (it only clears `vgm_wait`), the
state after the iteration is again at the same unrecognised opcode, and
`vgm_int` does not return, whatever the fuel. -/
theorem C15_unrecognised_opcode_spins (T : Nat) (s : VgmState) (hw : s.vgm_wait ≤ 0)
    (hp : s.vgm_pos < s.vgm_end) (hu : unrecognised (vgm_data_at s s.vgm_pos)) :
    vgm_dispatch s = (s, false) ∧
    vgm_step T s = ({ s with vgm_wait := 0 }, false) ∧
    ({ s with vgm_wait := 0 } : VgmState).vgm_pos = s.vgm_pos ∧
    ({ s with vgm_wait := 0 } : VgmState).opl_writes = s.opl_writes ∧
    vgm_data_at { s with vgm_wait := 0 } s.vgm_pos = vgm_data_at s s.vgm_pos ∧
    ∀ fuel, vgm_int T fuel s = none := by
  have hq : s.vgm_wait ≤ (VGM_FACTOR T : Nat) := by omega
  refine ⟨vgm_dispatch_unrecognised s hu, vgm_step_unrecognised T s hu hq, rfl, rfl, rfl, ?_⟩
  intro fuel
  unfold vgm_int
  rw [if_neg (by omega)]
  exact vgm_loop_stuck T fuel s hp hu hq

/-- Instance of C15: opcode `0x90` behind a register write. -/
theorem C15_unrecognised_opcode_spins_witness :
    (atCursor (playing [0x5a, 0xB0, 0x21, 0x90, 0x66]) 3 0).vgm_wait ≤ 0 ∧
    unrecognised (vgm_data_at (atCursor (playing [0x5a, 0xB0, 0x21, 0x90, 0x66]) 3 0) 3) ∧
    ∀ fuel, vgm_int 1000 fuel (atCursor (playing [0x5a, 0xB0, 0x21, 0x90, 0x66]) 3 0) = none :=
  ⟨by decide, by decide,
    (C15_unrecognised_opcode_spins 1000 (atCursor (playing [0x5a, 0xB0, 0x21, 0x90, 0x66]) 3 0)
      (by decide) (by decide) (by decide)).2.2.2.2.2⟩

/-! ## C17: ticks taken by a wait -/

/-- With `c = ⌈W / Q⌉`: `c * Q` reaches `W`, and `i * Q` stays below `W` for `i < c`. -/
theorem ceil_quantum (W Q : Nat) (hQ : 1 ≤ Q) :
    W ≤ (W + Q - 1) / Q * Q ∧ ∀ i, i < (W + Q - 1) / Q → i * Q < W := by
  generalize hc : (W + Q - 1) / Q = c
  have h1 := Nat.div_add_mod (W + Q - 1) Q
  have h2 := Nat.mod_lt (W + Q - 1) (show Q > 0 by omega)
  rw [hc] at h1
  have h3 : Q * c = c * Q := Nat.mul_comm _ _
  refine ⟨by omega, ?_⟩
  intro i hi
  have h4 : (i + 1) * Q ≤ c * Q := Nat.mul_le_mul_right _ hi
  have h5 : (i + 1) * Q = i * Q + Q := by ring
  omega

/-- While the wait counter is positive, ticks only count it down. -/
theorem ticks_countdown (T f : Nat) (s : VgmState) (p : Nat) (W : Nat) (i : Nat)
    (h : ∀ j, j < i → j * VGM_FACTOR T < W) :
    vgm_ticks T f i (atCursor s p W)
      = some (atCursor s p ((W : Int) - ((i * VGM_FACTOR T : Nat) : Int))) := by
  induction i with
  | zero => simp [vgm_ticks]
  | succ k ih =>
    have hk := h k (Nat.lt_succ_self k)
    rw [vgm_ticks_succ, ih (fun j hj => h j (Nat.lt_succ_of_lt hj)), Option.some_bind,
      tick_wait T f s p _ (by omega)]
    congr 2
    push_cast
    ring

/-- C17: let the quantum `Q = VGM_FACTOR` be at least 1 and let a tick decode,
with `vgm_wait ≤ 0`, a wait command of `W` samples.  If `W > Q` the tick ends
there with `vgm_wait = W`; each of the next `⌈W / Q⌉` ticks only subtracts `Q`
(the counter is positive before each of them and at most 0 after the last),
and the tick after them enters the decode loop at the next command: the wait
occupies `1 + ⌈W / Q⌉` ticks.  The dispatch stores `W` in `vgm_wait` whatever
remainder it held.  If `W ≤ Q` the same tick goes on decoding with
`vgm_wait = 0`. -/
theorem C17_wait_occupies_ticks (T f : Nat) (s : VgmState) (W : Nat)
    (hQ : 1 ≤ VGM_FACTOR T) (hW : waitOf s s.vgm_pos = some W) (hp : s.vgm_pos < s.vgm_end)
    (hw : s.vgm_pos + waitLength s s.vgm_pos < 2 ^ 32) (hwait : s.vgm_wait ≤ 0) :
    (VGM_FACTOR T < W →
      vgm_int T (f + 1) s = some (atCursor s (s.vgm_pos + waitLength s s.vgm_pos) W) ∧
      (∀ i, i ≤ (W + VGM_FACTOR T - 1) / VGM_FACTOR T →
        vgm_ticks T f i (atCursor s (s.vgm_pos + waitLength s s.vgm_pos) W)
          = some (atCursor s (s.vgm_pos + waitLength s s.vgm_pos)
              ((W : Int) - ((i * VGM_FACTOR T : Nat) : Int)))) ∧
      (∀ i, i < (W + VGM_FACTOR T - 1) / VGM_FACTOR T →
        0 < (W : Int) - ((i * VGM_FACTOR T : Nat) : Int)) ∧
      (W : Int) - (((W + VGM_FACTOR T - 1) / VGM_FACTOR T * VGM_FACTOR T : Nat) : Int) ≤ 0 ∧
      vgm_ticks T f ((W + VGM_FACTOR T - 1) / VGM_FACTOR T + 1)
          (atCursor s (s.vgm_pos + waitLength s s.vgm_pos) W)
        = vgm_loop T f (atCursor s (s.vgm_pos + waitLength s s.vgm_pos)
            ((W : Int) - (((W + VGM_FACTOR T - 1) / VGM_FACTOR T * VGM_FACTOR T : Nat) : Int)))) ∧
    (vgm_dispatch s).1.vgm_wait = W ∧
    (W ≤ VGM_FACTOR T →
      vgm_int T (f + 1) s
        = vgm_loop T f (atCursor s (s.vgm_pos + waitLength s s.vgm_pos) 0)) := by
  have hst := vgm_step_waitOf T s W hW hw
  have hint : vgm_int T (f + 1) s = vgm_loop T (f + 1) s := by
    unfold vgm_int
    rw [if_neg (by omega)]
  obtain ⟨hc1, hc2⟩ := ceil_quantum W (VGM_FACTOR T) hQ
  refine ⟨fun hq => ?_, ?_, fun hq => ?_⟩
  · rw [if_pos hq] at hst
    have hle : (W : Int) - (((W + VGM_FACTOR T - 1) / VGM_FACTOR T * VGM_FACTOR T : Nat) : Int)
        ≤ 0 := by
      have : ((W : Nat) : Int) ≤ (((W + VGM_FACTOR T - 1) / VGM_FACTOR T * VGM_FACTOR T : Nat) : Int) := by
        exact_mod_cast hc1
      omega
    refine ⟨?_, ?_, ?_, hle, ?_⟩
    · rw [hint]
      unfold vgm_loop
      rw [if_pos hp, hst]
    · intro i hi
      exact ticks_countdown T f s _ W i (fun j hj => hc2 j (by omega))
    · intro i hi
      have := hc2 i hi
      have h2 : ((i * VGM_FACTOR T : Nat) : Int) < ((W : Nat) : Int) := by exact_mod_cast this
      omega
    · rw [vgm_ticks_succ, ticks_countdown T f s _ W _ (fun j hj => hc2 j hj), Option.some_bind]
      unfold vgm_int
      rw [if_neg (by show ¬ (0 : Int) < _; exact not_lt.mpr hle)]
  · rw [vgm_dispatch_waitOf s W hW hw]
    rfl
  · rw [if_neg (by omega)] at hst
    rw [hint]
    conv_lhs => unfold vgm_loop
    rw [if_pos hp, hst]

/-- Instance of C17: `0x62` (735 samples) at 1000 ticks per second, quantum 44:
the 17 ticks after the decoding tick only count down. -/
theorem C17_wait_occupies_ticks_witness :
    1 ≤ VGM_FACTOR 1000 ∧ waitOf (playing [0x62, 0x66]) (playing [0x62, 0x66]).vgm_pos = some 735 ∧
    (735 + VGM_FACTOR 1000 - 1) / VGM_FACTOR 1000 = 17 ∧
    vgm_int 1000 (1 + 1) (playing [0x62, 0x66])
      = some (atCursor (playing [0x62, 0x66])
          ((playing [0x62, 0x66]).vgm_pos
            + waitLength (playing [0x62, 0x66]) (playing [0x62, 0x66]).vgm_pos) (735 : Nat)) :=
  ⟨by decide, by decide, by decide,
    ((C17_wait_occupies_ticks 1000 1 (playing [0x62, 0x66]) 735 (by decide) (by decide)
      (by decide) (by decide) (by decide)).1 (by decide)).1⟩

/-! ## C18: range of the wait counter -/

theorem vgm_data_at_lt (s : VgmState) (i : Nat) : vgm_data_at s i < 256 := by
  unfold vgm_data_at
  cases s.vgm_data with
  | none => exact Nat.zero_lt_succ _
  | some p => exact Nat.mod_lt _ (Nat.zero_lt_succ _)

/-- The dispatch leaves the wait counter alone or stores a sample count of at
most 65535 in it. -/
theorem vgm_dispatch_wait_range (s : VgmState) :
    (vgm_dispatch s).1.vgm_wait = s.vgm_wait ∨
    (0 ≤ (vgm_dispatch s).1.vgm_wait ∧ (vgm_dispatch s).1.vgm_wait ≤ 65535) := by
  have h1 := vgm_data_at_lt s ((s.vgm_pos + 1) % U32)
  have h2 := vgm_data_at_lt s ((s.vgm_pos + 1) % U32 + 1)
  have h3 : vgm_data_at s s.vgm_pos &&& 15 ≤ 15 := Nat.and_le_right
  unfold vgm_dispatch
  simp only [vgm_opl_write_eq, vgm_data_u16]
  split_ifs
  · right; constructor <;> simp only <;> omega
  · left; rfl
  · right; constructor <;> simp only <;> omega
  · right; constructor <;> simp only <;> omega
  · right; constructor <;> simp only <;> omega
  · left; rfl
  · left; rfl
  · left; rfl

theorem vgm_loop_wait_range (T : Nat) (hQ : 1 ≤ VGM_FACTOR T) (f : Nat) (s r : VgmState)
    (hr : vgm_loop T f s = some r) (h0 : s.vgm_wait ≤ 0)
    (h1 : -((VGM_FACTOR T : Nat) : Int) < s.vgm_wait) :
    -((VGM_FACTOR T : Nat) : Int) < r.vgm_wait ∧ r.vgm_wait ≤ 65535 := by
  induction f generalizing s with
  | zero =>
    unfold vgm_loop at hr
    split_ifs at hr
    injection hr with hr
    subst hr
    exact ⟨h1, by omega⟩
  | succ k ih =>
    unfold vgm_loop at hr
    split_ifs at hr with hp
    · have hd := vgm_dispatch_wait_range s
      unfold vgm_step at hr
      rcases hdisp : vgm_dispatch s with ⟨s1, b⟩
      rw [hdisp] at hr hd
      simp only at hd
      cases b
      · simp only at hr
        split_ifs at hr with hq
        · simp only at hr
          injection hr with hr
          subst hr
          omega
        · simp only at hr
          exact ih _ hr (le_refl _) (by simp only; omega)
      · simp only at hr
        injection hr with hr
        subst hr
        omega
    · injection hr with hr
      subst hr
      exact ⟨h1, by omega⟩

theorem vgm_int_wait_range (T : Nat) (hQ : 1 ≤ VGM_FACTOR T) (f : Nat) (s r : VgmState)
    (hr : vgm_int T f s = some r)
    (hs : -((VGM_FACTOR T : Nat) : Int) < s.vgm_wait ∧ s.vgm_wait ≤ 65535) :
    -((VGM_FACTOR T : Nat) : Int) < r.vgm_wait ∧ r.vgm_wait ≤ 65535 := by
  unfold vgm_int at hr
  split_ifs at hr with hw
  · injection hr with hr
    subst hr
    simp only
    omega
  · exact vgm_loop_wait_range T hQ f s r hr (by omega) hs.1

theorem vgm_ticks_wait_range (T : Nat) (hQ : 1 ≤ VGM_FACTOR T) (f n : Nat) (s r : VgmState)
    (hr : vgm_ticks T f n s = some r)
    (hs : -((VGM_FACTOR T : Nat) : Int) < s.vgm_wait ∧ s.vgm_wait ≤ 65535) :
    -((VGM_FACTOR T : Nat) : Int) < r.vgm_wait ∧ r.vgm_wait ≤ 65535 := by
  induction n generalizing s with
  | zero =>
    simp only [vgm_ticks] at hr
    injection hr with hr
    subst hr
    exact hs
  | succ k ih =>
    rw [vgm_ticks] at hr
    cases h1 : vgm_int T f s with
    | none => rw [h1] at hr; cases hr
    | some s1 =>
      rw [h1] at hr
      exact ih s1 hr (vgm_int_wait_range T hQ f s s1 h1 hs)

/-- C18: when the quantum `Q = VGM_FACTOR` is at least 1, every state that a
sequence of ticks reaches from `VgmPlay` on a loaded track, whatever the bytes
of the stream, has `-Q < vgm_wait ≤ 65535`. -/
theorem C18_wait_range (T f n : Nat) (s r : VgmState) (hQ : 1 ≤ VGM_FACTOR T)
    (hd : s.vgm_data ≠ none) (hr : vgm_ticks T f n (VgmPlay s) = some r) :
    -((VGM_FACTOR T : Nat) : Int) < r.vgm_wait ∧ r.vgm_wait ≤ 65535 := by
  apply vgm_ticks_wait_range T hQ f n (VgmPlay s) r hr
  unfold VgmPlay
  cases h : s.vgm_data with
  | none => exact absurd h hd
  | some p =>
    simp only [Option.isSome_some, if_true]
    constructor
    · omega
    · decide

/-- Instance of C18: two ticks on the stream `0x62 0x66` at 1000 ticks per
second leave 691 samples pending. -/
theorem C18_wait_range_witness :
    1 ≤ VGM_FACTOR 1000 ∧ (playing [0x62, 0x66]).vgm_data ≠ none ∧
    vgm_ticks 1000 2 2 (VgmPlay (playing [0x62, 0x66]))
      = some (atCursor (VgmPlay (playing [0x62, 0x66])) 1 691) ∧
    -((VGM_FACTOR 1000 : Nat) : Int) < (atCursor (VgmPlay (playing [0x62, 0x66])) 1 691).vgm_wait ∧
    (atCursor (VgmPlay (playing [0x62, 0x66])) 1 691).vgm_wait ≤ 65535 :=
  have h : vgm_ticks 1000 2 2 (VgmPlay (playing [0x62, 0x66]))
      = some (atCursor (VgmPlay (playing [0x62, 0x66])) 1 691) := by rfl
  ⟨by decide, by decide, h,
    C18_wait_range 1000 2 2 (playing [0x62, 0x66]) _ (by decide) (by decide) h⟩

/-! ## C12: stream start and length -/

/-- C12 fails as stated: a 229-byte file whose `VGMdataoffset` field holds 1000
loads successfully; the stream then starts at offset `0x34 + 1000 = 1052`,
behind the end of the file, `vgm_end` is `(229 - 1052) mod 2^32`, and start
plus length is not the file size. -/
theorem C12_offset_beyond_file :
    (Buffer.ofList (vgmFileOffset 0xE8 0x03 [0x66])).size = 229 ∧
    (Buffer.ofList (vgmFileOffset 0xE8 0x03 [0x66])).field 0x34 = 1000 ∧
    (VgmLoad 0x00 0xC0 (some (Buffer.ofList (vgmFileOffset 0xE8 0x03 [0x66])))
      (VgmState.init (fun _ => 0))).1 = none ∧
    (VgmLoad 0x00 0xC0 (some (Buffer.ofList (vgmFileOffset 0xE8 0x03 [0x66])))
      (VgmState.init (fun _ => 0))).2.vgm_data = some { blk := 0, off := 1052 } ∧
    (VgmLoad 0x00 0xC0 (some (Buffer.ofList (vgmFileOffset 0xE8 0x03 [0x66])))
      (VgmState.init (fun _ => 0))).2.vgm_end = 4294966473 ∧
    1052 + 4294966473 ≠ 229 := by
  decide

/-- C12 as amended: after a successful `VgmLoad` of a file of `size` bytes
(`size` an `int`) whose `VGMdataoffset` field holds `d` with `0x34 + d ≤ size`,
`vgm_data` points into the block of `vgm` at byte offset `0x34 + d` (also when
`d` is 0), the stream bytes are the file bytes from that offset on, `vgm_end`
is `size - (0x34 + d)`, and start plus length is `size`. -/
theorem C12_stream_bounds (A B : Nat) (b : Buffer) (s : VgmState)
    (hok : (VgmLoad A B (some b) s).1 = none) (hsz : b.size < 2 ^ 31)
    (hin : 0x34 + b.field 0x34 ≤ b.size) :
    (∃ blk, (VgmLoad A B (some b) s).2.vgm = some { blk := blk, off := 0 } ∧
      (VgmLoad A B (some b) s).2.vgm_data
        = some { blk := blk, off := 0x34 + b.field 0x34 }) ∧
    (∀ i, vgm_data_at (VgmLoad A B (some b) s).2 i = b.byte (0x34 + b.field 0x34 + i)) ∧
    (VgmLoad A B (some b) s).2.vgm_end = b.size - (0x34 + b.field 0x34) ∧
    (0x34 + b.field 0x34) + (VgmLoad A B (some b) s).2.vgm_end = b.size := by
  have hmod : (0x34 + b.field 0x34) % U32 = 0x34 + b.field 0x34 := by
    apply Nat.mod_eq_of_lt
    simp only [U32]
    omega
  have hend : (((b.size : Int) - (((0x34 + b.field 0x34) % U32 : Nat) : Int)) % (U32 : Int)).toNat
      = b.size - (0x34 + b.field 0x34) := by
    rw [hmod]
    have h1 : ((b.size : Int) - ((0x34 + b.field 0x34 : Nat) : Int))
        = ((b.size - (0x34 + b.field 0x34) : Nat) : Int) := by omega
    rw [h1, Int.emod_eq_of_lt (by omega) (by simp only [U32]; omega)]
    exact Int.toNat_natCast _
  rcases VgmLoad_cases A B (some b) s with ⟨_, e⟩ | ⟨_, _, e⟩ | ⟨b1, _, hb, _, e⟩ |
    ⟨b1, _, hb, _, _, e⟩ | ⟨b1, _, hb, _, _, _, e⟩ | ⟨b1, _, hb, _, _, _, e⟩
  · rw [e] at hok; cases hok
  · rw [e] at hok; cases hok
  · rw [e] at hok; cases hok
  · rw [e] at hok; cases hok
  · rw [e] at hok; cases hok
  · cases hb
    rw [e]
    refine ⟨⟨(VgmDiscard (probeState s)).heap_next, rfl, ?_⟩, ?_, ?_, ?_⟩
    · simp only [loadedState, hmod]
    · intro i
      simp only [vgm_data_at, loadedState, readState, hmod, if_true, Buffer.byte]
    · simp only [loadedState, hend]
    · simp only [loadedState, hend]
      omega

/-- Instance of the amended C12: the 229-byte file with `VGMdataoffset = 176`. -/
theorem C12_stream_bounds_witness :
    (VgmLoad 0x00 0xC0 (some (Buffer.ofList (vgmFile 0x51 0x01 [0x66])))
      (VgmState.init (fun _ => 0))).1 = none ∧
    0x34 + (Buffer.ofList (vgmFile 0x51 0x01 [0x66])).field 0x34
      ≤ (Buffer.ofList (vgmFile 0x51 0x01 [0x66])).size ∧
    (VgmLoad 0x00 0xC0 (some (Buffer.ofList (vgmFile 0x51 0x01 [0x66])))
      (VgmState.init (fun _ => 0))).2.vgm_end
      = (Buffer.ofList (vgmFile 0x51 0x01 [0x66])).size
        - (0x34 + (Buffer.ofList (vgmFile 0x51 0x01 [0x66])).field 0x34) :=
  ⟨by decide, by decide,
    (C12_stream_bounds 0x00 0xC0 (Buffer.ofList (vgmFile 0x51 0x01 [0x66]))
      (VgmState.init (fun _ => 0)) (by decide) (by decide) (by decide)).2.2.1⟩

/-! ## Streams of complete commands: the cursor stays on command boundaries -/

theorem parsesFrom_end (s : VgmState) (n : Nat) : parsesFrom s n s.vgm_end = true := by
  cases n <;> simp [parsesFrom]

theorem parsesFrom_le (s : VgmState) (n p : Nat) (h : parsesFrom s n p = true) :
    p ≤ s.vgm_end := by
  cases n with
  | zero =>
    simp only [parsesFrom, decide_eq_true_eq] at h
    omega
  | succ k =>
    unfold parsesFrom at h
    by_cases h1 : p = s.vgm_end
    · omega
    · rw [if_neg h1] at h
      by_cases h2 : p < s.vgm_end
      · omega
      · rw [if_neg h2] at h
        cases h

/-- What a successful parse says about a command that is not `0x66`. -/
theorem parsesFrom_command (s : VgmState) (n p : Nat) (h : parsesFrom s (n + 1) p = true)
    (hp : p < s.vgm_end) (hne : vgm_data_at s p ≠ 0x66) :
    ∃ len, cmdLength s p = some len ∧ p + len ≤ s.vgm_end ∧ parsesFrom s n (p + len) = true := by
  unfold parsesFrom at h
  rw [if_neg (Nat.ne_of_lt hp), if_pos hp, if_neg hne] at h
  cases hl : cmdLength s p with
  | none => rw [hl] at h; cases h
  | some len =>
    rw [hl] at h
    simp only [Bool.and_eq_true, decide_eq_true_eq] at h
    exact ⟨len, rfl, h.1, h.2⟩

theorem parsesFrom_mono (s : VgmState) (n m p : Nat) (h : parsesFrom s n p = true)
    (hnm : n ≤ m) : parsesFrom s m p = true := by
  induction n generalizing m p with
  | zero =>
    simp only [parsesFrom, decide_eq_true_eq] at h
    rw [h]
    exact parsesFrom_end s m
  | succ k ih =>
    obtain ⟨m', rfl⟩ : ∃ m', m = m' + 1 := ⟨m - 1, by omega⟩
    by_cases h1 : p = s.vgm_end
    · rw [h1]; exact parsesFrom_end s _
    · have hp : p < s.vgm_end := by
        have := parsesFrom_le s _ p h
        omega
      by_cases he : vgm_data_at s p = 0x66
      · unfold parsesFrom
        rw [if_neg h1, if_pos hp, if_pos he]
      · obtain ⟨len, hl, hle, hrest⟩ := parsesFrom_command s k p h hp he
        unfold parsesFrom
        rw [if_neg h1, if_pos hp, if_neg he, hl]
        simp only [Bool.and_eq_true, decide_eq_true_eq]
        exact ⟨hle, ih m' (p + len) hrest (by omega)⟩

theorem cmdLength_pos (s : VgmState) (p len : Nat) (h : cmdLength s p = some len) :
    1 ≤ len := by
  simp only [cmdLength] at h
  split_ifs at h <;> (injection h with h; omega)

/-- The offsets read while dispatching a complete command lie inside the stream. -/
theorem vgm_dispatch_reads_lt (s : VgmState) (hE : s.vgm_end < U32)
    (hp : s.vgm_pos < s.vgm_end)
    (hc : vgm_data_at s s.vgm_pos = 0x66 ∨
      ∃ len, cmdLength s s.vgm_pos = some len ∧ s.vgm_pos + len ≤ s.vgm_end) :
    ∀ i ∈ vgm_dispatch_reads s, i < s.vgm_end := by
  intro i hi
  unfold vgm_dispatch_reads at hi
  simp only [List.mem_cons] at hi
  rcases hi with hi | hi
  · omega
  · rcases hc with hc | ⟨len, hl, hle⟩
    · rw [hc] at hi
      simp at hi
    · simp only [cmdLength] at hl
      have hm : ∀ k, s.vgm_pos + k ≤ s.vgm_end → (s.vgm_pos + k) % U32 = s.vgm_pos + k :=
        fun k hk => Nat.mod_eq_of_lt (by omega)
      by_cases c1 : vgm_data_at s s.vgm_pos = 0x5a
      · have hlen : len = 3 := by
          rw [c1] at hl
          simp at hl
          omega
        subst hlen
        rw [if_pos c1, hm 1 (by omega), hm 2 (by omega)] at hi
        simp only [List.mem_cons, List.mem_singleton, List.not_mem_nil, or_false] at hi
        omega
      · rw [if_neg c1] at hi
        by_cases c2 : vgm_data_at s s.vgm_pos = 0x61
        · have hlen : len = 3 := by
            rw [c2] at hl
            simp at hl
            omega
          subst hlen
          rw [if_pos c2, hm 1 (by omega)] at hi
          simp only [List.mem_cons, List.mem_singleton, List.not_mem_nil, or_false] at hi
          omega
        · rw [if_neg c2] at hi
          by_cases c3 : vgm_data_at s s.vgm_pos = 0x67
          · have hlen : len = 3 + 4 + vgm_data_u32 s (s.vgm_pos + 3) := by
              rw [c3] at hl
              simp at hl
              omega
            rw [if_pos c3, hm 3 (by omega)] at hi
            simp only [List.mem_cons, List.mem_singleton, List.not_mem_nil, or_false] at hi
            omega
          · rw [if_neg c3] at hi
            simp at hi
theorem AtBoundary.mk_of_parse (s0 r : VgmState) (n : Nat) (hs : SameStream s0 r)
    (hp : parsesFrom s0 n r.vgm_pos = true) (hn : n ≤ s0.vgm_end) : AtBoundary s0 r :=
  ⟨hs, parsesFrom_mono s0 n _ _ hp hn⟩

/-- On a stream of complete commands the loop of `vgm_int`, started on a
command boundary, returns on a command boundary, and every state in which it
dispatches a command is on a command boundary inside the stream. -/
theorem vgm_loop_boundary (T : Nat) (s0 : VgmState) (hE : s0.vgm_end < U32)
    (h0 : parsesFrom s0 s0.vgm_end 0 = true) (n : Nat) (s : VgmState)
    (hs : SameStream s0 s) (hp : parsesFrom s0 n s.vgm_pos = true) (hn : n ≤ s0.vgm_end) :
    ∃ r, vgm_loop T n s = some r ∧ AtBoundary s0 r ∧
      ∀ d ∈ vgm_loop_trace T n s, AtBoundary s0 d ∧ d.vgm_pos < s0.vgm_end := by
  induction n generalizing s with
  | zero =>
    have hle := parsesFrom_le s0 0 _ hp
    simp only [parsesFrom, decide_eq_true_eq] at hp
    refine ⟨s, ?_, ⟨hs, by rw [hp]; exact parsesFrom_end s0 _⟩, ?_⟩
    · unfold vgm_loop
      rw [if_neg (by rw [hs.2.2]; omega)]
    · intro d hd
      simp [vgm_loop_trace] at hd
  | succ k ih =>
    have hb : AtBoundary s0 s := AtBoundary.mk_of_parse s0 s _ hs hp hn
    by_cases hlt : s.vgm_pos < s.vgm_end
    · have hlt0 : s.vgm_pos < s0.vgm_end := by rw [← hs.2.2]; exact hlt
      by_cases he : vgm_data_at s s.vgm_pos = 0x66
      · refine ⟨{ s with vgm_pos := 0 }, ?_, ⟨⟨hs.1, hs.2.1, hs.2.2⟩, h0⟩, ?_⟩
        · unfold vgm_loop
          rw [if_pos hlt, vgm_step_eos T s he]
        · intro d hd
          unfold vgm_loop_trace at hd
          rw [if_pos hlt, vgm_step_eos T s he] at hd
          simp only [List.mem_singleton] at hd
          subst hd
          exact ⟨hb, hlt0⟩
      · have he0 : vgm_data_at s0 s.vgm_pos ≠ 0x66 := by
          rw [← vgm_data_at_congr hs]; exact he
        obtain ⟨len, hl, hle, hrest⟩ := parsesFrom_command s0 k _ hp hlt0 he0
        have hl' : cmdLength s s.vgm_pos = some len := by rw [cmdLength_congr hs]; exact hl
        have hadv := vgm_dispatch_advance s len hl' he (by omega)
        have hpos := vgm_step_pos T s
        have hsame := vgm_step_sameStream T s
        rcases hst : vgm_step T s with ⟨s1, b⟩
        rw [hst] at hpos hsame
        simp only at hpos hsame
        have hs1 : SameStream s0 s1 := SameStream.trans hs hsame
        have hp1 : parsesFrom s0 k s1.vgm_pos = true := by rw [hpos, hadv.1]; exact hrest
        cases b
        · obtain ⟨r, hr, hbr, htr⟩ := ih s1 hs1 hp1 (by omega)
          refine ⟨r, ?_, hbr, ?_⟩
          · unfold vgm_loop
            rw [if_pos hlt, hst]
            exact hr
          · intro d hd
            unfold vgm_loop_trace at hd
            rw [if_pos hlt, hst] at hd
            simp only [List.mem_cons] at hd
            rcases hd with hd | hd
            · subst hd; exact ⟨hb, hlt0⟩
            · exact htr d hd
        · refine ⟨s1, ?_, AtBoundary.mk_of_parse s0 s1 k hs1 hp1 (by omega), ?_⟩
          · unfold vgm_loop
            rw [if_pos hlt, hst]
          · intro d hd
            unfold vgm_loop_trace at hd
            rw [if_pos hlt, hst] at hd
            simp only [List.mem_singleton] at hd
            subst hd
            exact ⟨hb, hlt0⟩
    · refine ⟨s, ?_, hb, ?_⟩
      · unfold vgm_loop
        rw [if_neg hlt]
      · intro d hd
        unfold vgm_loop_trace at hd
        rw [if_neg hlt] at hd
        cases hd

/-- One tick on a stream of complete commands, started on a command boundary. -/
theorem vgm_int_boundary (T : Nat) (s0 : VgmState) (hE : s0.vgm_end < U32)
    (h0 : parsesFrom s0 s0.vgm_end 0 = true) (s : VgmState) (hb : AtBoundary s0 s) :
    ∃ r, vgm_int T s0.vgm_end s = some r ∧ AtBoundary s0 r ∧
      ∀ d ∈ vgm_int_trace T s0.vgm_end s, AtBoundary s0 d ∧ d.vgm_pos < s0.vgm_end := by
  by_cases hw : s.vgm_wait > 0
  · refine ⟨{ s with vgm_wait := s.vgm_wait - (VGM_FACTOR T : Nat) }, ?_,
      ⟨⟨hb.1.1, hb.1.2.1, hb.1.2.2⟩, hb.2⟩, ?_⟩
    · unfold vgm_int
      rw [if_pos hw]
    · intro d hd
      unfold vgm_int_trace at hd
      rw [if_pos hw] at hd
      cases hd
  · obtain ⟨r, hr, hbr, htr⟩ := vgm_loop_boundary T s0 hE h0 s0.vgm_end s hb.1 hb.2 (le_refl _)
    refine ⟨r, ?_, hbr, ?_⟩
    · unfold vgm_int
      rw [if_neg hw]
      exact hr
    · intro d hd
      unfold vgm_int_trace at hd
      rw [if_neg hw] at hd
      exact htr d hd

/-- Every tick of a run on a stream of complete commands returns, on a command
boundary. -/
theorem vgm_ticks_boundary (T : Nat) (s0 : VgmState) (hE : s0.vgm_end < U32)
    (h0 : parsesFrom s0 s0.vgm_end 0 = true) (n : Nat) (s : VgmState) (hb : AtBoundary s0 s) :
    ∃ r, vgm_ticks T s0.vgm_end n s = some r ∧ AtBoundary s0 r := by
  induction n generalizing s with
  | zero => exact ⟨s, rfl, hb⟩
  | succ k ih =>
    obtain ⟨s1, h1, hb1, _⟩ := vgm_int_boundary T s0 hE h0 s hb
    obtain ⟨r, hr, hbr⟩ := ih s1 hb1
    refine ⟨r, ?_, hbr⟩
    rw [vgm_ticks, h1]
    exact hr

/-- A command state on a boundary that does not hold `0x66` holds a complete
recognised command. -/
theorem AtBoundary.command (s0 d : VgmState) (hb : AtBoundary s0 d)
    (hlt : d.vgm_pos < s0.vgm_end) (hne : vgm_data_at d d.vgm_pos ≠ 0x66) :
    ∃ len, cmdLength d d.vgm_pos = some len ∧ d.vgm_pos + len ≤ d.vgm_end ∧ 1 ≤ len := by
  obtain ⟨k, hk⟩ : ∃ k, s0.vgm_end = k + 1 := ⟨s0.vgm_end - 1, by omega⟩
  have hp := hb.2
  rw [hk] at hp
  have hne0 : vgm_data_at s0 d.vgm_pos ≠ 0x66 := by
    rw [← vgm_data_at_congr hb.1]; exact hne
  obtain ⟨len, hl, hle, _⟩ := parsesFrom_command s0 k _ hp hlt hne0
  refine ⟨len, by rw [cmdLength_congr hb.1]; exact hl, by rw [hb.1.2.2]; exact hle, ?_⟩
  exact cmdLength_pos s0 _ len hl

theorem VgmPlay_sameStream (s : VgmState) : SameStream s (VgmPlay s) := by
  unfold VgmPlay
  split <;> exact ⟨rfl, rfl, rfl⟩

theorem VgmPlay_pos (s : VgmState) (hd : s.vgm_data ≠ none) : (VgmPlay s).vgm_pos = 0 := by
  unfold VgmPlay
  cases h : s.vgm_data with
  | none => exact absurd h hd
  | some p => simp

/-! ## C11: the cursor and the stream length -/

/-- C11 fails as stated: the one-byte stream `0x5a` is a register write without
its operands; after start and one tick the cursor is 3 while the stream length
is 1. -/
theorem C11_cursor_passes_end :
    (vgm_int 1000 1 (playing [0x5a])).map (fun r => (r.vgm_pos, r.vgm_end)) = some (3, 1) := by
  decide

/-- C11 as amended: for every loaded stream that parses from offset 0 as a
sequence of complete recognised commands, after `VgmPlay` and after every
number of ticks (each of which returns) the cursor is at most the stream
length. -/
theorem C11_cursor_in_stream (T n : Nat) (s : VgmState) (hd : s.vgm_data ≠ none)
    (hE : s.vgm_end < 2 ^ 32) (h0 : parsesFrom s s.vgm_end 0 = true) :
    ∃ r, vgm_ticks T s.vgm_end n (VgmPlay s) = some r ∧ r.vgm_pos ≤ r.vgm_end ∧
      r.vgm_end = s.vgm_end := by
  have hs := VgmPlay_sameStream s
  have he : (VgmPlay s).vgm_end = s.vgm_end := hs.2.2
  have h0' : parsesFrom (VgmPlay s) (VgmPlay s).vgm_end 0 = true := by
    rw [parsesFrom_congr hs, he]; exact h0
  have hb : AtBoundary (VgmPlay s) (VgmPlay s) :=
    ⟨SameStream.refl _, by rw [VgmPlay_pos s hd]; exact h0'⟩
  obtain ⟨r, hr, hbr⟩ := vgm_ticks_boundary T (VgmPlay s) (by rw [he]; exact hE) h0' n _ hb
  rw [he] at hr
  refine ⟨r, hr, ?_, by rw [hbr.1.2.2, he]⟩
  have := parsesFrom_le _ _ _ hbr.2
  rw [hbr.1.2.2]
  exact this

/-- Instance of the amended C11: the loaded stream `0x5a 0xB0 0x21 0x62 0x66`. -/
theorem C11_cursor_in_stream_witness :
    (playing [0x5a, 0xB0, 0x21, 0x62, 0x66]).vgm_data ≠ none ∧
    parsesFrom (playing [0x5a, 0xB0, 0x21, 0x62, 0x66])
      (playing [0x5a, 0xB0, 0x21, 0x62, 0x66]).vgm_end 0 = true ∧
    ∃ r, vgm_ticks 1000 (playing [0x5a, 0xB0, 0x21, 0x62, 0x66]).vgm_end 40
        (VgmPlay (playing [0x5a, 0xB0, 0x21, 0x62, 0x66])) = some r ∧
      r.vgm_pos ≤ r.vgm_end ∧ r.vgm_end = (playing [0x5a, 0xB0, 0x21, 0x62, 0x66]).vgm_end :=
  ⟨by decide, by decide,
    C11_cursor_in_stream 1000 40 (playing [0x5a, 0xB0, 0x21, 0x62, 0x66])
      (by decide) (by decide) (by decide)⟩

/-! ## C19: offsets read by the ticks -/

/-- C19: on a stream that parses from offset 0 as a sequence of complete
recognised commands, started on a command boundary, every number of ticks
returns a state whose cursor is at most the stream length, and in the tick
that follows every offset read is below the stream length and every command
is dispatched with the cursor below the stream length. -/
theorem C19_reads_in_stream (T n : Nat) (s : VgmState) (hE : s.vgm_end < 2 ^ 32)
    (h0 : parsesFrom s s.vgm_end 0 = true) (hp : parsesFrom s s.vgm_end s.vgm_pos = true) :
    ∃ r, vgm_ticks T s.vgm_end n s = some r ∧ r.vgm_end = s.vgm_end ∧
      r.vgm_pos ≤ r.vgm_end ∧
      (∀ i ∈ vgm_int_reads T s.vgm_end r, i < r.vgm_end) ∧
      (∀ d ∈ vgm_int_trace T s.vgm_end r, d.vgm_pos < d.vgm_end) := by
  obtain ⟨r, hr, hbr⟩ := vgm_ticks_boundary T s hE h0 n s ⟨SameStream.refl s, hp⟩
  obtain ⟨_, _, _, htr⟩ := vgm_int_boundary T s hE h0 r hbr
  have hre : r.vgm_end = s.vgm_end := hbr.1.2.2
  refine ⟨r, hr, hre, ?_, ?_, ?_⟩
  · rw [hre]; exact parsesFrom_le _ _ _ hbr.2
  · intro i hi
    unfold vgm_int_reads at hi
    simp only [List.mem_flatten, List.mem_map] at hi
    obtain ⟨l, ⟨d, hd, rfl⟩, hil⟩ := hi
    obtain ⟨hbd, hlt⟩ := htr d hd
    have hde : d.vgm_end = s.vgm_end := hbd.1.2.2
    have := vgm_dispatch_reads_lt d (by rw [hde]; exact hE) (by rw [hde]; exact hlt)
      (by
        by_cases he : vgm_data_at d d.vgm_pos = 0x66
        · exact Or.inl he
        · obtain ⟨len, hl, hle, _⟩ := AtBoundary.command s d hbd hlt he
          exact Or.inr ⟨len, hl, hle⟩) i hil
    rw [hre, ← hde]
    exact this
  · intro d hd
    obtain ⟨hbd, hlt⟩ := htr d hd
    rw [hbd.1.2.2]
    exact hlt

/-- Instance of C19: the first tick on `0x5a 0xB0 0x21 0x62 0x66` reads the
offsets 0 to 3. -/
theorem C19_reads_in_stream_witness :
    (playing [0x5a, 0xB0, 0x21, 0x62, 0x66]).vgm_end < 2 ^ 32 ∧
    parsesFrom (playing [0x5a, 0xB0, 0x21, 0x62, 0x66])
      (playing [0x5a, 0xB0, 0x21, 0x62, 0x66]).vgm_end 0 = true ∧
    vgm_int_reads 1000 (playing [0x5a, 0xB0, 0x21, 0x62, 0x66]).vgm_end
      (playing [0x5a, 0xB0, 0x21, 0x62, 0x66]) = [0, 1, 2, 3] ∧
    ∃ r, vgm_ticks 1000 (playing [0x5a, 0xB0, 0x21, 0x62, 0x66]).vgm_end 0
        (playing [0x5a, 0xB0, 0x21, 0x62, 0x66]) = some r ∧
      r.vgm_end = (playing [0x5a, 0xB0, 0x21, 0x62, 0x66]).vgm_end ∧
      r.vgm_pos ≤ r.vgm_end ∧
      (∀ i ∈ vgm_int_reads 1000 (playing [0x5a, 0xB0, 0x21, 0x62, 0x66]).vgm_end r,
        i < r.vgm_end) ∧
      (∀ d ∈ vgm_int_trace 1000 (playing [0x5a, 0xB0, 0x21, 0x62, 0x66]).vgm_end r,
        d.vgm_pos < d.vgm_end) :=
  ⟨by decide, by decide, by decide,
    C19_reads_in_stream 1000 0 (playing [0x5a, 0xB0, 0x21, 0x62, 0x66])
      (by decide) (by decide) (by decide)⟩

/-! ## C20: every command moves the cursor forward -/

/-- C20: on a stream that parses from offset 0 as a sequence of complete
recognised commands, started on a command boundary, every number of ticks
returns, the tick that follows returns within `vgm_end` command dispatches, and
each command dispatched in it other than `0x66` leaves the cursor strictly
greater than it found it. -/
theorem C20_commands_advance (T n : Nat) (s : VgmState) (hE : s.vgm_end < 2 ^ 32)
    (h0 : parsesFrom s s.vgm_end 0 = true) (hp : parsesFrom s s.vgm_end s.vgm_pos = true) :
    ∃ r r1, vgm_ticks T s.vgm_end n s = some r ∧ vgm_int T s.vgm_end r = some r1 ∧
      ∀ d ∈ vgm_int_trace T s.vgm_end r, vgm_data_at d d.vgm_pos ≠ 0x66 →
        d.vgm_pos < (vgm_dispatch d).1.vgm_pos := by
  obtain ⟨r, hr, hbr⟩ := vgm_ticks_boundary T s hE h0 n s ⟨SameStream.refl s, hp⟩
  obtain ⟨r1, hr1, _, htr⟩ := vgm_int_boundary T s hE h0 r hbr
  refine ⟨r, r1, hr, hr1, ?_⟩
  intro d hd hne
  obtain ⟨hbd, hlt⟩ := htr d hd
  obtain ⟨len, hl, hle, hpos⟩ := AtBoundary.command s d hbd hlt hne
  have hde : d.vgm_end = s.vgm_end := hbd.1.2.2
  have hadv := vgm_dispatch_advance d len hl hne (by simp only [U32]; omega)
  rw [hadv.1]
  omega

/-- Instance of C20: the stream `0x70 0x5a 0xB0 0x21 0x67 0x66 0x00 0x01 0x00
0x00 0x00 0xFF 0x66` after three ticks at 1000 ticks per second. -/
theorem C20_commands_advance_witness :
    (playing [0x70, 0x5a, 0xB0, 0x21, 0x67, 0x66, 0x00, 0x01, 0x00, 0x00, 0x00, 0xFF, 0x66]).vgm_end
      = 13 ∧
    parsesFrom (playing [0x70, 0x5a, 0xB0, 0x21, 0x67, 0x66, 0x00, 0x01, 0x00, 0x00, 0x00, 0xFF, 0x66])
      13 0 = true ∧
    ∃ r r1,
      vgm_ticks 1000
        (playing [0x70, 0x5a, 0xB0, 0x21, 0x67, 0x66, 0x00, 0x01, 0x00, 0x00, 0x00, 0xFF, 0x66]).vgm_end
        3 (playing [0x70, 0x5a, 0xB0, 0x21, 0x67, 0x66, 0x00, 0x01, 0x00, 0x00, 0x00, 0xFF, 0x66])
        = some r ∧
      vgm_int 1000
        (playing [0x70, 0x5a, 0xB0, 0x21, 0x67, 0x66, 0x00, 0x01, 0x00, 0x00, 0x00, 0xFF, 0x66]).vgm_end
        r = some r1 ∧
      ∀ d ∈ vgm_int_trace 1000
          (playing [0x70, 0x5a, 0xB0, 0x21, 0x67, 0x66, 0x00, 0x01, 0x00, 0x00, 0x00, 0xFF, 0x66]).vgm_end
          r,
        vgm_data_at d d.vgm_pos ≠ 0x66 → d.vgm_pos < (vgm_dispatch d).1.vgm_pos :=
  ⟨by decide, by decide,
    C20_commands_advance 1000 3
      (playing [0x70, 0x5a, 0xB0, 0x21, 0x67, 0x66, 0x00, 0x01, 0x00, 0x00, 0x00, 0xFF, 0x66])
      (by decide) (by decide) (by decide)⟩

/-! ## C16: the chip writes of one pass over the stream -/

theorem cmdWrites_congr {s t : VgmState} (h : SameStream s t) (p : Nat) :
    cmdWrites t p = cmdWrites s p := by
  simp only [cmdWrites, vgm_data_at_congr h]

/-- The chip-write record after dispatching a complete command. -/
theorem vgm_dispatch_writes (s : VgmState) (len : Nat)
    (hl : cmdLength s s.vgm_pos = some len) (hw : s.vgm_pos + len < U32) :
    (vgm_dispatch s).1.opl_writes = s.opl_writes ++ cmdWrites s s.vgm_pos := by
  unfold cmdWrites
  by_cases c : vgm_data_at s s.vgm_pos = 0x5a
  · have hlen : len = 3 := by
      simp only [cmdLength] at hl
      rw [c] at hl
      simp at hl
      omega
    subst hlen
    have h1 := vgm_data_at_lt s (s.vgm_pos + 1)
    have h2 := vgm_data_at_lt s (s.vgm_pos + 2)
    unfold vgm_dispatch
    simp only [c, vgm_opl_write_eq, Nat.mod_eq_of_lt (show s.vgm_pos + 1 < U32 by omega),
      Nat.mod_eq_of_lt (show s.vgm_pos + 2 < U32 by omega), Nat.mod_eq_of_lt h1,
      Nat.mod_eq_of_lt h2]
    simp
  · rw [if_neg c, List.append_nil]
    unfold vgm_dispatch
    simp only [c, if_false]
    split_ifs <;> rfl

theorem vgm_step_writes (T : Nat) (s : VgmState) :
    (vgm_step T s).1.opl_writes = (vgm_dispatch s).1.opl_writes := by
  unfold vgm_step
  rcases hd : vgm_dispatch s with ⟨s1, b⟩
  cases b
  · simp only
    split_ifs <;> rfl
  · rfl

/-- When a loop iteration on a command other than `0x66` leaves the loop, the
wait counter exceeds the quantum; otherwise it is 0. -/
theorem vgm_step_wait (T : Nat) (s s1 : VgmState) (b : Bool) (h : vgm_step T s = (s1, b))
    (hd : (vgm_dispatch s).2 = false) :
    (b = true → (VGM_FACTOR T : Int) < s1.vgm_wait) ∧ (b = false → s1.vgm_wait = 0) := by
  unfold vgm_step at h
  rcases hdisp : vgm_dispatch s with ⟨s2, b2⟩
  rw [hdisp] at h hd
  simp only at hd
  subst hd
  simp only at h
  split_ifs at h with hq
  · injection h with h1 h2
    subst h1 h2
    exact And.intro (fun _ => hq) (fun h => Bool.noConfusion h)
  · injection h with h1 h2
    subst h1 h2
    exact And.intro (fun h => Bool.noConfusion h) (fun _ => rfl)
theorem ResetsAfter.of_tick (T F : Nat) (s : VgmState) (w0 ws : List (Nat × Nat))
    (hpos : s.vgm_pos ≠ 0) (h : ResetsAfter T F (vgm_int T F s) w0 ws) :
    ResetsAfter T F (some s) w0 ws := by
  obtain ⟨k, r, s1, h1, h2, h3, h4, h5⟩ := h
  refine ⟨k + 1, r, s, rfl, ?_, h3, h4, ?_⟩
  · rw [vgm_ticks, h1]
    exact h2
  · intro j hj rj hrj
    cases j with
    | zero =>
      simp only [vgm_ticks] at hrj
      injection hrj with hrj
      subst hrj
      exact hpos
    | succ j' =>
      rw [vgm_ticks, h1] at hrj
      exact h5 j' (by omega) rj hrj

theorem ResetsAfter.writes_eq (T F : Nat) (first : Option VgmState)
    (w0 ws w0' ws' : List (Nat × Nat)) (he : w0 ++ ws = w0' ++ ws')
    (h : ResetsAfter T F first w0 ws) : ResetsAfter T F first w0' ws' := by
  obtain ⟨k, r, s1, h1, h2, h3, h4, h5⟩ := h
  exact ⟨k, r, s1, h1, h2, h3, by rw [h4, he], h5⟩

/-- A tick started on a command boundary, given what the decode loop achieves
from such a boundary: a pending wait is counted down first. -/
theorem tick_resets (T F : Nat) (hQ : 1 ≤ VGM_FACTOR T) (s0 : VgmState) (n : Nat)
    (hL : ∀ s ws, SameStream s0 s → streamWrites s0 n s.vgm_pos = some ws → s.vgm_wait ≤ 0 →
      ResetsAfter T F (vgm_loop T F s) s.opl_writes ws)
    (w : Nat) (s : VgmState) (ws : List (Nat × Nat)) (hw : s.vgm_wait ≤ (w : Int))
    (hs : SameStream s0 s) (hws : streamWrites s0 n s.vgm_pos = some ws)
    (hpos : s.vgm_wait ≤ 0 ∨ s.vgm_pos ≠ 0) :
    ResetsAfter T F (vgm_int T F s) s.opl_writes ws := by
  induction w generalizing s with
  | zero =>
    have h0 : s.vgm_wait ≤ 0 := by omega
    unfold vgm_int
    rw [if_neg (by omega)]
    exact hL s ws hs hws h0
  | succ k ih =>
    by_cases h0 : s.vgm_wait ≤ 0
    · unfold vgm_int
      rw [if_neg (by omega)]
      exact hL s ws hs hws h0
    · have hp : s.vgm_pos ≠ 0 := by
        rcases hpos with h | h
        · exact absurd h h0
        · exact h
      have hint : vgm_int T F s
          = some { s with vgm_wait := s.vgm_wait - (VGM_FACTOR T : Nat) } := by
        unfold vgm_int
        rw [if_pos (by omega)]
      rw [hint]
      exact ResetsAfter.of_tick T F { s with vgm_wait := s.vgm_wait - (VGM_FACTOR T : Nat) }
        _ _ hp (ih { s with vgm_wait := s.vgm_wait - (VGM_FACTOR T : Nat) }
          (by simp only; omega) ⟨hs.1, hs.2.1, hs.2.2⟩ hws (Or.inr hp))

/-- The decode loop started on a command boundary of a stream that ends in
`0x66`: together with the following ticks it emits the stream's register
writes and brings the cursor back to 0. -/
theorem loop_resets (T F : Nat) (hQ : 1 ≤ VGM_FACTOR T) (s0 : VgmState)
    (hE : s0.vgm_end < U32) (n : Nat) :
    ∀ f s ws, n ≤ f → n ≤ F → SameStream s0 s → streamWrites s0 n s.vgm_pos = some ws →
      s.vgm_wait ≤ 0 → ResetsAfter T F (vgm_loop T f s) s.opl_writes ws := by
  induction n with
  | zero =>
    intro f s ws _ _ _ hws _
    simp [streamWrites] at hws
  | succ k ih =>
    intro f s ws hf hF hs hws hw
    obtain ⟨f', rfl⟩ : ∃ f', f = f' + 1 := ⟨f - 1, by omega⟩
    unfold streamWrites at hws
    by_cases hlt0 : s.vgm_pos < s0.vgm_end
    · rw [if_pos hlt0] at hws
      have hlt : s.vgm_pos < s.vgm_end := by rw [hs.2.2]; exact hlt0
      by_cases he0 : vgm_data_at s0 s.vgm_pos = 0x66
      · rw [if_pos he0] at hws
        injection hws with hws
        subst hws
        have he : vgm_data_at s s.vgm_pos = 0x66 := by rw [vgm_data_at_congr hs]; exact he0
        unfold vgm_loop
        rw [if_pos hlt, vgm_step_eos T s he]
        exact ⟨0, _, _, rfl, rfl, rfl, by simp, fun j hj => absurd hj (Nat.not_lt_zero j)⟩
      · rw [if_neg he0] at hws
        have he : vgm_data_at s s.vgm_pos ≠ 0x66 := by rw [vgm_data_at_congr hs]; exact he0
        cases hl0 : cmdLength s0 s.vgm_pos with
        | none => rw [hl0] at hws; cases hws
        | some len =>
          rw [hl0] at hws
          simp only at hws
          by_cases hle : s.vgm_pos + len ≤ s0.vgm_end
          · rw [if_pos hle] at hws
            cases hrest : streamWrites s0 k (s.vgm_pos + len) with
            | none => rw [hrest] at hws; cases hws
            | some ws' =>
              rw [hrest] at hws
              simp only [Option.map_some'] at hws
              injection hws with hws
              subst hws
              have hl : cmdLength s s.vgm_pos = some len := by
                rw [cmdLength_congr hs]; exact hl0
              have hadv := vgm_dispatch_advance s len hl he (by omega)
              have hwr := vgm_dispatch_writes s len hl (by omega)
              have hpos := vgm_step_pos T s
              have hsame := vgm_step_sameStream T s
              have hstw := vgm_step_writes T s
              rcases hst : vgm_step T s with ⟨s1, b⟩
              have hwait := vgm_step_wait T s s1 b hst hadv.2
              rw [hst] at hpos hsame hstw
              simp only at hpos hsame hstw
              have hs1 : SameStream s0 s1 := SameStream.trans hs hsame
              have hp1 : s1.vgm_pos = s.vgm_pos + len := by rw [hpos, hadv.1]
              have hw1 : s1.opl_writes = s.opl_writes ++ cmdWrites s0 s.vgm_pos := by
                rw [hstw, hwr, cmdWrites_congr hs]
              have hlen := cmdLength_pos s0 _ len hl0
              have hassoc : s1.opl_writes ++ ws'
                  = s.opl_writes ++ (cmdWrites s0 s.vgm_pos ++ ws') := by
                rw [hw1, List.append_assoc]
              unfold vgm_loop
              rw [if_pos hlt, hst]
              cases b
              · simp only
                apply ResetsAfter.writes_eq T F _ _ _ _ _ hassoc
                exact ih f' s1 ws' (by omega) (by omega) hs1 (by rw [hp1]; exact hrest)
                  (by rw [hwait.2 rfl])
              · simp only
                apply ResetsAfter.writes_eq T F _ _ _ _ _ hassoc
                apply ResetsAfter.of_tick T F s1 _ _ (by omega)
                exact tick_resets T F hQ s0 k
                  (fun s ws h1 h2 h3 => ih F s ws (by omega) (by omega) h1 h2 h3)
                  s1.vgm_wait.toNat s1 ws' (Int.self_le_toNat _) hs1
                  (by rw [hp1]; exact hrest) (Or.inr (by omega))
          · rw [if_neg hle] at hws
            cases hws
    · rw [if_neg hlt0] at hws
      cases hws
/-- C16: let the quantum `Q = VGM_FACTOR` be at least 1 and let the stream parse
from offset 0 as complete recognised commands ending in `0x66`, with `ws` the
operand pairs of its `0x5a` commands in stream order (`streamWrites`).  From
the start state (cursor 0, wait 0) some number `k ≥ 1` of ticks, all of which
return, brings the cursor back to 0 for the first time, and by then the chip
has received exactly the writes `ws`, in that order, after those it had
received before.  `ws` is computed from the stream alone, so the writes are the
same for every such quantum. -/
theorem C16_register_writes (T : Nat) (s : VgmState) (ws : List (Nat × Nat))
    (hQ : 1 ≤ VGM_FACTOR T) (hE : s.vgm_end < 2 ^ 32) (hp : s.vgm_pos = 0)
    (hw : s.vgm_wait = 0) (hws : streamWrites s s.vgm_end 0 = some ws) :
    ∃ k r, 1 ≤ k ∧ vgm_ticks T s.vgm_end k s = some r ∧ r.vgm_pos = 0 ∧
      r.opl_writes = s.opl_writes ++ ws ∧
      ∀ j, 1 ≤ j → j < k → ∀ rj, vgm_ticks T s.vgm_end j s = some rj → rj.vgm_pos ≠ 0 := by
  have h := tick_resets T s.vgm_end hQ s s.vgm_end
    (fun s' ws' h1 h2 h3 =>
      loop_resets T s.vgm_end hQ s hE s.vgm_end s.vgm_end s' ws' (le_refl _) (le_refl _) h1 h2 h3)
    0 s ws (by rw [hw]; exact le_refl _) (SameStream.refl s) (by rw [hp]; exact hws)
    (Or.inl (by rw [hw]))
  obtain ⟨k, r, s1, h1, h2, h3, h4, h5⟩ := h
  refine ⟨k + 1, r, by omega, ?_, h3, h4, ?_⟩
  · rw [vgm_ticks, h1]
    exact h2
  · intro j hj1 hjk rj hrj
    obtain ⟨j', rfl⟩ : ∃ j', j = j' + 1 := ⟨j - 1, by omega⟩
    rw [vgm_ticks, h1] at hrj
    exact h5 j' (by omega) rj hrj

/-- Instance of C16: two register writes separated by a frame wait. -/
theorem C16_register_writes_witness :
    1 ≤ VGM_FACTOR 1000 ∧
    streamWrites (playing [0x70, 0x5a, 0xB0, 0x21, 0x62, 0x5a, 0xA0, 0x98, 0x66])
      (playing [0x70, 0x5a, 0xB0, 0x21, 0x62, 0x5a, 0xA0, 0x98, 0x66]).vgm_end 0
      = some [(0xB0, 0x21), (0xA0, 0x98)] ∧
    ∃ k r, 1 ≤ k ∧
      vgm_ticks 1000 (playing [0x70, 0x5a, 0xB0, 0x21, 0x62, 0x5a, 0xA0, 0x98, 0x66]).vgm_end k
        (playing [0x70, 0x5a, 0xB0, 0x21, 0x62, 0x5a, 0xA0, 0x98, 0x66]) = some r ∧
      r.vgm_pos = 0 ∧
      r.opl_writes = (playing [0x70, 0x5a, 0xB0, 0x21, 0x62, 0x5a, 0xA0, 0x98, 0x66]).opl_writes
        ++ [(0xB0, 0x21), (0xA0, 0x98)] ∧
      ∀ j, 1 ≤ j → j < k → ∀ rj,
        vgm_ticks 1000 (playing [0x70, 0x5a, 0xB0, 0x21, 0x62, 0x5a, 0xA0, 0x98, 0x66]).vgm_end j
          (playing [0x70, 0x5a, 0xB0, 0x21, 0x62, 0x5a, 0xA0, 0x98, 0x66]) = some rj →
        rj.vgm_pos ≠ 0 :=
  ⟨by decide, by decide,
    C16_register_writes 1000 (playing [0x70, 0x5a, 0xB0, 0x21, 0x62, 0x5a, 0xA0, 0x98, 0x66])
      [(0xB0, 0x21), (0xA0, 0x98)] (by decide) (by decide) (by decide) (by decide) (by decide)⟩

end Vgm
